import Mathlib

/-!
klogg: pattern matcher and line index

A shallow embedding of
* `src/logdata/include/data/hsregularexpression.h` (pattern, fallback matcher,
  `HsRegularExpression` of a build without the automaton engine),
* the validity check of `CrawlerWidget::replaceCurrentSearch`
  (`src/ui/src/crawlerwidget.cpp`),
* `src/logdata/include/data/logdataworker.h` (`IndexedHash`, `IndexingData`,
  `IndexingState`, `OperationResult` and the index operations).

Qt's regular expression engine is a library outside the repository: it is a
parameter (`RegexEngine`) of every definition that calls it.
-/

namespace Klogg

/-! ## Definitions: regular expressions -/

/-- Qt constant `QRegularExpression::CaseInsensitiveOption` (value `0x0001`). -/
def CaseInsensitiveOption : Nat := 1

/-- Qt constant `QRegularExpression::DontCaptureOption` (value `0x0020`). -/
def DontCaptureOption : Nat := 32

/-- Qt constant `QRegularExpression::UseUnicodePropertiesOption` (value `0x0040`). -/
def UseUnicodePropertiesOption : Nat := 64

/-- Qt's `QFlags::testFlag`: every bit of `flag` is set in `options`. -/
def testFlag (options flag : Nat) : Bool :=
  (options &&& flag) == flag

/-- A `QRegularExpression` value: the pattern text and the pattern options it was
built from (`pattern()`, `patternOptions()`). -/
structure QRegularExpression where
  pattern : String
  patternOptions : Nat
deriving DecidableEq, Repr

/-- The regular expression library, as far as the code calls it:
`QRegularExpression::isValid`, `errorString`, `match(subject).hasMatch()` and
`QString::fromUtf8` on the bytes of a line. -/
structure RegexEngine where
  isValid : QRegularExpression → Bool
  errorString : QRegularExpression → String
  hasMatch : QRegularExpression → String → Bool
  fromUtf8 : List Nat → String

/-- Source: `struct RegularExpressionPattern` (hsregularexpression.h:35). -/
structure RegularExpressionPattern where
  pattern : String := ""
  isCaseSensitive : Bool := true
  isExclude : Bool := false
deriving DecidableEq, Repr

/-- Source: `explicit operator QRegularExpression() const` (hsregularexpression.h:54). -/
def RegularExpressionPattern.toQRegularExpression (p : RegularExpressionPattern) :
    QRegularExpression :=
  let patternOptions := UseUnicodePropertiesOption ||| DontCaptureOption
  let patternOptions :=
    if !p.isCaseSensitive then patternOptions ||| CaseInsensitiveOption else patternOptions
  QRegularExpression.mk p.pattern patternOptions

/-- Source: `class DefaultRegularExpressionMatcher` (hsregularexpression.h:73). -/
structure DefaultRegularExpressionMatcher where
  regexp_ : QRegularExpression
  isExclude_ : Bool := false
deriving DecidableEq, Repr

/-- Source: `explicit DefaultRegularExpressionMatcher( const RegularExpressionPattern& )`. -/
def DefaultRegularExpressionMatcher.ofPattern (regexp : RegularExpressionPattern) :
    DefaultRegularExpressionMatcher :=
  DefaultRegularExpressionMatcher.mk regexp.toQRegularExpression regexp.isExclude

/-- Source: `DefaultRegularExpressionMatcher( const QRegularExpression&, bool isExclude )`:
the member is rebuilt from `regexp.pattern()` and `regexp.patternOptions()`. -/
def DefaultRegularExpressionMatcher.ofRegexp (regexp : QRegularExpression) (isExclude : Bool) :
    DefaultRegularExpressionMatcher :=
  DefaultRegularExpressionMatcher.mk
    (QRegularExpression.mk regexp.pattern regexp.patternOptions) isExclude

/-- Source: `bool hasMatch( const QString& data ) const` (hsregularexpression.h:87). -/
def DefaultRegularExpressionMatcher.hasMatch (engine : RegexEngine)
    (m : DefaultRegularExpressionMatcher) (data : String) : Bool :=
  let isMatching := engine.hasMatch m.regexp_ data
  (!m.isExclude_ && isMatching) || (m.isExclude_ && !isMatching)

/-- Source: `bool hasMatch( const std::string_view& utf8Data ) const` (hsregularexpression.h:93). -/
def DefaultRegularExpressionMatcher.hasMatchUtf8 (engine : RegexEngine)
    (m : DefaultRegularExpressionMatcher) (utf8Data : List Nat) : Bool :=
  let isMatching := engine.hasMatch m.regexp_ (engine.fromUtf8 utf8Data)
  (!m.isExclude_ && isMatching) || (m.isExclude_ && !isMatching)

/-- Source: `using MatcherVariant = std::variant<DefaultRegularExpressionMatcher>`
(build without KLOGG_HAS_HS, hsregularexpression.h:161). -/
inductive MatcherVariant where
  | default (m : DefaultRegularExpressionMatcher)
deriving DecidableEq, Repr

/-- The matcher held by the variant. -/
def MatcherVariant.matcher : MatcherVariant → DefaultRegularExpressionMatcher
  | MatcherVariant.default m => m

/-- The `hasMatch` of the held matcher, through the variant. -/
def MatcherVariant.hasMatch (engine : RegexEngine) (v : MatcherVariant) (data : String) : Bool :=
  v.matcher.hasMatch engine data

/-- The `hasMatch` on UTF-8 bytes of the held matcher, through the variant. -/
def MatcherVariant.hasMatchUtf8 (engine : RegexEngine) (v : MatcherVariant)
    (utf8Data : List Nat) : Bool :=
  v.matcher.hasMatchUtf8 engine utf8Data

/-- Source: `class HsRegularExpression` of a build without KLOGG_HAS_HS
(hsregularexpression.h:163). -/
structure HsRegularExpression where
  regexp_ : QRegularExpression
  isExclude_ : Bool := false
deriving DecidableEq, Repr

/-- Source: `explicit HsRegularExpression( const RegularExpressionPattern& regexp )`. -/
def HsRegularExpression.ofPattern (regexp : RegularExpressionPattern) : HsRegularExpression :=
  HsRegularExpression.mk regexp.toQRegularExpression regexp.isExclude

/-- Source: `bool isValid() const` (hsregularexpression.h:171). -/
def HsRegularExpression.isValid (engine : RegexEngine) (h : HsRegularExpression) : Bool :=
  engine.isValid h.regexp_

/-- Source: `QString errorString() const` (hsregularexpression.h:176). -/
def HsRegularExpression.errorString (engine : RegexEngine) (h : HsRegularExpression) : String :=
  engine.errorString h.regexp_

/-- Source: `MatcherVariant createMatcher() const` (hsregularexpression.h:181). -/
def HsRegularExpression.createMatcher (h : HsRegularExpression) : MatcherVariant :=
  MatcherVariant.default (DefaultRegularExpressionMatcher.ofRegexp h.regexp_ h.isExclude_)

/-! ## Definitions: validity check of `replaceCurrentSearch` -/

/-- The automaton-engine `HsRegularExpression` of a build with KLOGG_HAS_HS, whose
member functions are declared in hsregularexpression.h:134 and defined outside the
sources at hand: what `isValid()` and `errorString()` answer for a pattern. -/
structure HsEngine where
  isValid : RegularExpressionPattern → Bool
  errorString : RegularExpressionPattern → String

/-- The regular expression `regexp` built inside `#ifdef KLOGG_HAS_HS` of
`replaceCurrentSearch` (crawlerwidget.cpp:1153-1160). -/
def fallbackCheckRegexp (pattern : String) (matchCaseChecked : Bool) : QRegularExpression :=
  let patternOptions := UseUnicodePropertiesOption
  let patternOptions :=
    if !matchCaseChecked then patternOptions ||| CaseInsensitiveOption else patternOptions
  QRegularExpression.mk pattern patternOptions

/-- The pair `(isValidExpression, errorString)` computed by `replaceCurrentSearch` for a
non-empty search text in a build with KLOGG_HAS_HS (crawlerwidget.cpp:1144-1164);
`pattern` is the text after the optional escaping. -/
def checkExpression (engine : RegexEngine) (hs : HsEngine) (pattern : String)
    (matchCaseChecked inverseChecked : Bool) : Bool × String :=
  let regexpPattern := RegularExpressionPattern.mk pattern matchCaseChecked inverseChecked
  let isValidExpression := hs.isValid regexpPattern
  let errorString := hs.errorString regexpPattern
  if !isValidExpression then
    let regexp := fallbackCheckRegexp pattern matchCaseChecked
    (engine.isValid regexp, engine.errorString regexp)
  else
    (isValidExpression, errorString)

/-- The same pair in a build without KLOGG_HAS_HS, where `HsRegularExpression` is the
fallback class and the `#ifdef` block is absent (crawlerwidget.cpp:1144-1149). -/
def checkExpressionFallbackBuild (engine : RegexEngine) (pattern : String)
    (matchCaseChecked inverseChecked : Bool) : Bool × String :=
  let regexpPattern := RegularExpressionPattern.mk pattern matchCaseChecked inverseChecked
  let hsExpression := HsRegularExpression.ofPattern regexpPattern
  (hsExpression.isValid engine, hsExpression.errorString engine)

/-- A regular expression library that, like PCRE with `PCRE2_NO_AUTO_CAPTURE`, refuses a
numbered back-reference when groups do not capture, and accepts everything else; a match
is the subject being equal to the pattern text. Used to evaluate the code on a concrete
library. -/
def backrefEngine : RegexEngine where
  isValid := fun r =>
    !(testFlag r.patternOptions DontCaptureOption && r.pattern.toList.contains (Char.ofNat 92))
  errorString := fun r =>
    if testFlag r.patternOptions DontCaptureOption && r.pattern.toList.contains (Char.ofNat 92)
    then "reference to non-existent subpattern" else ""
  hasMatch := fun r subject => r.pattern == subject
  fromUtf8 := fun bytes => String.mk (bytes.map Char.ofNat)

/-- An automaton engine that accepts no pattern. -/
def rejectingHs : HsEngine where
  isValid := fun _ => false
  errorString := fun _ => "unsupported"

/-! ## Definitions: line index and index operations (logdataworker.h)

`logdataworker.h` declares the line index and the index operations; the bodies of
`IndexingData`'s member functions and of `doIndex`, `parseDataBlock`, `guessEncoding`,
`run` and `doCheckFileChanges` are in a file that is not among the sources, and so are
`FileDigest`, `EncodingDetector`, `EncodingParameters` and the block size. Each such
definition below says what it is modelled from. A file is the list of its bytes, the
line feed (byte 10) is the line terminator, and the length of a line is counted in the
characters of the codec the scan has settled on. -/

/-- The line terminator, the byte `'\n'`. -/
def lineFeed : Nat := 10

/-- Source: `struct IndexedHash` (logdataworker.h:59). -/
structure IndexedHash where
  size : Nat := 0
  fullDigest : Nat := 0
  headerSize : Nat := 0
  headerDigest : Nat := 0
  tailSize : Nat := 0
  tailOffset : Nat := 0
  tailDigest : Nat := 0
deriving DecidableEq, Repr

/-- Modelled from the spec: `EncodingParameters` (encodingdetector.h is not among the
sources), the parameters of the codec the text of the file is decoded in, by which the
scan counts "text length in characters (not raw bytes) post-decoding"; a `QTextCodec*`
is `none` for the null pointer and `some` of a codec identifier otherwise. -/
structure EncodingParameters where
  codec : Option Nat := none
deriving DecidableEq, Repr

/-- What the scanner takes from outside: the byte-mixing step of the digest
(`FileDigest`), the "additional spaces" a byte adds to the displayed length of a line
when it stands at a given column (the tab-width convention of the display layer), the
encoding detector, the number of characters that the bytes of a line decode to under the
parameters of a codec, and the sizes of the leading and of the trailing part of the file
that are digested for the check of file changes. -/
structure IndexingEnv where
  mix : Nat → Nat → Nat
  additionalSpaces : Nat → Nat → Nat
  detectEncoding : List Nat → Nat
  textLength : EncodingParameters → List Nat → Nat
  headerSize : Nat
  tailSize : Nat

/-- Modelled from the spec: `FileDigest` (filedigest.h is not among the sources), the
"rolling digest state" into which each block is folded. -/
structure FileDigest where
  state : Nat := 0
deriving DecidableEq, Repr

/-- Modelled from the spec: `FileDigest::addData`, "fold the block bytes into the
running digest". -/
def FileDigest.addData (env : IndexingEnv) (d : FileDigest) (data : List Nat) : FileDigest :=
  FileDigest.mk (data.foldl env.mix d.state)

/-- Modelled from the spec: `FileDigest::digest`, the fingerprint of the bytes folded
so far. -/
def FileDigest.digest (d : FileDigest) : Nat :=
  d.state

/-- Modelled from the spec: the digest of a byte range, computed from a fresh digest
state. -/
def digestOf (env : IndexingEnv) (data : List Nat) : Nat :=
  (FileDigest.addData env (FileDigest.mk 0) data).digest

/-- Source: `class IndexingData` (logdataworker.h:168), without its mutex. A `QTextCodec*` is
`none` for the null pointer and `some` of a codec identifier otherwise. -/
structure IndexingData where
  linePosition_ : List Nat := []
  maxLength_ : Nat := 0
  hashBuilder_ : FileDigest := FileDigest.mk 0
  hash_ : IndexedHash := IndexedHash.mk 0 0 0 0 0 0 0
  encodingGuess_ : Option Nat := none
  encodingForced_ : Option Nat := none
deriving DecidableEq, Repr

/-- Modelled from the spec: `IndexingData::getIndexedSize` (declared at
logdataworker.h:174), the "currently recorded end-of-data offset" of the index. -/
def IndexingData.getIndexedSize (d : IndexingData) : Nat :=
  d.hash_.size

/-- Modelled from the spec: `IndexingData::getHash` (declared at logdataworker.h:176). -/
def IndexingData.getHash (d : IndexingData) : IndexedHash :=
  d.hash_

/-- Modelled from the spec: `IndexingData::getMaxLength` (declared at
logdataworker.h:179), "the length of the longest line". -/
def IndexingData.getMaxLength (d : IndexingData) : Nat :=
  d.maxLength_

/-- Modelled from the spec: `IndexingData::getNbLines` (declared at
logdataworker.h:182): "Length = number of indexed lines". -/
def IndexingData.getNbLines (d : IndexingData) : Nat :=
  d.linePosition_.length

/-- Modelled from the spec: `IndexingData::getPosForLine` (declared at
logdataworker.h:186), which "fails with OutOfRange if n >= lineCount". -/
def IndexingData.getPosForLine (d : IndexingData) (line : Nat) : Option Nat :=
  d.linePosition_.get? line

/-- Modelled from the spec: `IndexingData::setEncodingGuess` (declared at
logdataworker.h:190). -/
def IndexingData.setEncodingGuess (d : IndexingData) (codec : Option Nat) : IndexingData :=
  { d with encodingGuess_ := codec }

/-- Modelled from the spec: `IndexingData::forceEncoding` (declared at
logdataworker.h:193). -/
def IndexingData.forceEncoding (d : IndexingData) (codec : Option Nat) : IndexingData :=
  { d with encodingForced_ := codec }

/-- Modelled from the spec: `IndexingData::addAll` (declared at logdataworker.h:197),
the `appendBlock` of the spec: "it appends new entries to linePositions, raises
maxLineLength if the block's longest line exceeds it, and folds the block into the
rolling digest", the indexed size growing by the bytes of the block. -/
def IndexingData.addAll (env : IndexingEnv) (d : IndexingData) (block : List Nat)
    (length : Nat) (linePosition : List Nat) (encoding : Option Nat) : IndexingData :=
  let hashBuilder := d.hashBuilder_.addData env block
  { d with
    maxLength_ := max d.maxLength_ length
    linePosition_ := d.linePosition_ ++ linePosition
    hashBuilder_ := hashBuilder
    hash_ := { d.hash_ with
      size := d.hash_.size + block.length
      fullDigest := hashBuilder.digest }
    encodingGuess_ := encoding }

/-- Modelled from the spec: `IndexingData::clear` (declared at logdataworker.h:201),
the full reset of the index "before a Full re-index". -/
def IndexingData.clear (_d : IndexingData) : IndexingData :=
  { linePosition_ := []
    maxLength_ := 0
    hashBuilder_ := FileDigest.mk 0
    hash_ := IndexedHash.mk 0 0 0 0 0 0 0
    encodingGuess_ := none
    encodingForced_ := none }

/-- Source: `IndexingDataAccessor::setHeaderHash` (logdataworker.h:138). -/
def IndexingData.setHeaderHash (d : IndexingData) (digest size : Nat) : IndexingData :=
  let d := { d with hash_ := { d.hash_ with headerSize := size } }
  { d with hash_ := { d.hash_ with headerDigest := digest } }

/-- Source: `IndexingDataAccessor::setTailHash` (logdataworker.h:144). -/
def IndexingData.setTailHash (d : IndexingData) (digest offset size : Nat) : IndexingData :=
  let d := { d with hash_ := { d.hash_ with tailSize := size } }
  let d := { d with hash_ := { d.hash_ with tailOffset := offset } }
  { d with hash_ := { d.hash_ with tailDigest := digest } }

/-- Source: `struct IndexingState` (logdataworker.h:221); `end_` is the field `end`. -/
structure IndexingState where
  encodingParams : EncodingParameters := { }
  pos : Nat := 0
  max_length : Nat := 0
  additional_spaces : Nat := 0
  end_ : Nat := 0
  file_size : Nat := 0
  encodingGuess : Option Nat := none
  fileTextCodec : Option Nat := none
deriving DecidableEq, Repr

/-- Modelled from the spec: the scan loop of `IndexOperation::parseDataBlock` over the
bytes that start at file offset `offset` of the file `file` (the file of the operation,
`fileName_`): "scan for line terminators, producing a sequence of byte offsets marking
line ends", each the offset "where the next line begins"; the length of a line is that
of its text, the bytes of the file from the line start carried in the state, "in
characters (not raw bytes) post-decoding" under the encoding parameters of the state,
plus the additional spaces of its bytes. -/
def parseBytes (env : IndexingEnv) (file : List Nat) :
    Nat → List Nat → IndexingState → List Nat × IndexingState
  | _, [], state => ([], state)
  | offset, c :: rest, state =>
    if c = lineFeed then
      let length :=
        env.textLength state.encodingParams
            ((file.drop state.pos).take (offset - state.pos))
          + state.additional_spaces
      let state := { state with
        end_ := offset
        max_length := max state.max_length length
        pos := offset + 1
        additional_spaces := 0 }
      let r := parseBytes env file (offset + 1) rest state
      (state.pos :: r.1, r.2)
    else
      let column :=
        env.textLength state.encodingParams
            ((file.drop state.pos).take (offset - state.pos))
          + state.additional_spaces
      let state := { state with
        additional_spaces := state.additional_spaces + env.additionalSpaces column c }
      parseBytes env file (offset + 1) rest state

/-- Modelled from the spec: `IndexOperation::parseDataBlock` (declared at
logdataworker.h:266): the line ends of one block, with the longest line that ends in
the block left in `state.max_length`; "a block that does not end in a terminator
leaves its trailing partial line to be completed by the next block". -/
def parseDataBlock (env : IndexingEnv) (file : List Nat) (blockBegining : Nat)
    (block : List Nat) (state : IndexingState) : List Nat × IndexingState :=
  parseBytes env file blockBegining block { state with max_length := 0 }

/-- Modelled from the spec: `IndexOperation::guessEncoding` (declared at
logdataworker.h:269): "if no encoding is yet known, guess the encoding heuristically
from byte patterns unless a forced encoding override is supplied; a forced encoding
always wins"; the guess is "set once from the first non-empty block". The encoding
parameters of the state are those of the codec the text is decoded in. -/
def guessEncoding (env : IndexingEnv) (block : List Nat) (data : IndexingData)
    (state : IndexingState) : IndexingState :=
  match data.encodingForced_ with
  | some codec =>
    { state with fileTextCodec := some codec, encodingParams := EncodingParameters.mk (some codec) }
  | none =>
    if state.encodingGuess.isNone && !block.isEmpty then
      let guess := env.detectEncoding block
      { state with
        encodingGuess := some guess
        fileTextCodec := some guess
        encodingParams := EncodingParameters.mk (some guess) }
    else state

/-- Modelled from the spec: the per-block loop of `IndexOperation::doIndex` over the
blocks read from the file, the first of which begins at `blockBegining`: decode the
encoding, scan the block, commit it with `addAll`, "then check the interrupt flag; if
set, stop". `interruptRequest k` is what the check after the commit of block `k`
observes. The Boolean result says that the scan was cancelled. -/
def scanBlocks (env : IndexingEnv) (file : List Nat) (interruptRequest : Nat → Bool) :
    Nat → Nat → List (List Nat) → IndexingData → IndexingState →
      IndexingData × IndexingState × Bool
  | _, _, [], data, state => (data, state, false)
  | k, blockBegining, block :: rest, data, state =>
    let state := guessEncoding env block data state
    let parsed := parseDataBlock env file blockBegining block state
    let state := parsed.2
    let data := data.addAll env block state.max_length parsed.1 state.encodingGuess
    if interruptRequest k then (data, state, true)
    else
      scanBlocks env file interruptRequest (k + 1) (blockBegining + block.length) rest data
        state

/-- Modelled from the spec: how a scan ends: at the end of the file, on the interrupt
flag ("stop and report cancelled rather than finished"), or on a read that fails
("IOFailure: file became unreadable mid-scan"). -/
inductive ScanEnd where
  | finished
  | cancelled
  | failed
deriving DecidableEq, Repr

/-- Modelled from the spec: `IndexOperation::doIndex` (declared at logdataworker.h:259)
on the blocks read from `initialPosition` on in the file `file`; `readFailed` says that
the read after these blocks failed. After the last block of a scan that
reaches the end of the file, "a file whose last byte is not a terminator still counts
that trailing partial content as one line", whose position is the offset
one-past-the-end of the line; a scan that is cancelled or whose read fails leaves the
index with the blocks committed so far. -/
def doIndexBlocks (env : IndexingEnv) (file : List Nat) (interruptRequest : Nat → Bool)
    (blocks : List (List Nat)) (readFailed : Bool) (data : IndexingData)
    (initialPosition : Nat) : IndexingData × ScanEnd :=
  let fileTextCodec := data.encodingForced_.orElse (fun _ => data.encodingGuess_)
  let state : IndexingState :=
    { encodingParams := EncodingParameters.mk fileTextCodec
      pos := initialPosition
      file_size := file.length
      encodingGuess := data.encodingGuess_
      fileTextCodec := fileTextCodec }
  let r := scanBlocks env file interruptRequest 0 initialPosition blocks data state
  let data := r.1
  let state := r.2.1
  if r.2.2 then (data, ScanEnd.cancelled)
  else if readFailed then (data, ScanEnd.failed)
  else if state.file_size > state.pos then
    let length :=
      env.textLength state.encodingParams
          ((file.drop state.pos).take (state.file_size - state.pos))
        + state.additional_spaces
    (data.addAll env [] length [state.file_size] state.encodingGuess, ScanEnd.finished)
  else (data, ScanEnd.finished)

/-- Modelled from the spec: the reads of the block scanner, which "reads the file in
fixed-size blocks ... until end-of-file": the blocks of `blockSize` bytes of `data`, the
last one shorter when the bytes run out; `fuel` bounds the number of reads. -/
def readBlocks (blockSize : Nat) : Nat → List Nat → List (List Nat)
  | 0, _ => []
  | fuel + 1, data =>
    if data.isEmpty then []
    else data.take blockSize :: readBlocks blockSize fuel (data.drop blockSize)

/-- Modelled from the spec: the blocks that the scanner gets from a file whose bytes
from the start of the scan on are `rest`: all of them when no read fails, and the
first `k` when `readFailure` is `some k`, the file having become "unreadable mid-scan"
at the read after them. -/
def blocksRead (blockSize : Nat) (readFailure : Option Nat) (rest : List Nat) :
    List (List Nat) :=
  match readFailure with
  | none => readBlocks blockSize rest.length rest
  | some k => (readBlocks blockSize rest.length rest).take k

/-- Modelled from the spec: the record, in the hash of the index, of the "digest of the
first headerSize bytes and of the last tailSize bytes of the file as last indexed", made
with `setHeaderHash` and `setTailHash` (logdataworker.h:138-149). -/
def recordHeaderAndTail (env : IndexingEnv) (file : List Nat) (data : IndexingData) :
    IndexingData :=
  let indexedSize := data.getIndexedSize
  let headerSize := min env.headerSize indexedSize
  let data := data.setHeaderHash (digestOf env (file.take headerSize)) headerSize
  let tailSize := min env.tailSize indexedSize
  let tailOffset := indexedSize - tailSize
  data.setTailHash (digestOf env ((file.drop tailOffset).take tailSize)) tailOffset tailSize

/-- Modelled from the spec: `IndexOperation::doIndex` (declared at logdataworker.h:259)
on a file: the block scanner run from `initialPosition` over blocks of `blockSize`
bytes (the block size is "a tunable constant"), then the record of the header and tail
digests of the file as indexed. -/
def doIndex (env : IndexingEnv) (interruptRequest : Nat → Bool) (readFailure : Option Nat)
    (blockSize : Nat) (file : List Nat) (data : IndexingData) (initialPosition : Nat) :
    IndexingData × ScanEnd :=
  let rest := file.drop initialPosition
  let r := doIndexBlocks env file interruptRequest
    (blocksRead blockSize readFailure rest) readFailure.isSome data initialPosition
  (recordHeaderAndTail env file r.1, r.2)

/-- Modelled from the spec: `MonitoredFileStatus` (loadingstatus.h is not among the
sources), the `ChangeStatus` of the spec; `crawlerwidget.cpp` names its value
`Truncated`. -/
inductive MonitoredFileStatus where
  | Unchanged
  | DataAdded
  | Truncated
deriving DecidableEq, Repr

/-- Source: `using OperationResult = std::variant<bool, MonitoredFileStatus>`
(logdataworker.h:234): the `bool` alternative and the file status alternative. -/
inductive OperationResult where
  | ofBool (b : Bool)
  | ofStatus (status : MonitoredFileStatus)
deriving DecidableEq, Repr

/-- Modelled from the spec: `FullIndexOperation::run` (declared at logdataworker.h:282):
"clear() the Line Index, then Block-Scan from offset 0 to current EOF, optionally with a
caller-forced encoding". The result is the `bool` alternative: `true` for a scan that
reached the end of the file; `false` for a cancelled one, after the comment on
`IndexOperation::run` (logdataworker.h:247), "returns true if it has been done and false
if it has been cancelled", and for one whose read failed, which "reports
Completed(false)". -/
def FullIndexOperation.run (env : IndexingEnv) (interruptRequest : Nat → Bool)
    (readFailure : Option Nat) (blockSize : Nat) (file : List Nat)
    (forcedEncoding : Option Nat) (data : IndexingData) :
    IndexingData × OperationResult :=
  let data := data.clear
  let data := data.forceEncoding forcedEncoding
  let r := doIndex env interruptRequest readFailure blockSize file data 0
  (r.1, OperationResult.ofBool (r.2 == ScanEnd.finished))

/-- Modelled from the spec: `PartialIndexOperation::run` (declared at
logdataworker.h:298): "Block-Scan starting at the Line Index's currently recorded
end-of-data offset through the new EOF ... Never calls clear()". The result is as for
the full index. -/
def PartialIndexOperation.run (env : IndexingEnv) (interruptRequest : Nat → Bool)
    (readFailure : Option Nat) (blockSize : Nat) (file : List Nat) (data : IndexingData) :
    IndexingData × OperationResult :=
  let initialPosition := data.getIndexedSize
  let r := doIndex env interruptRequest readFailure blockSize file data initialPosition
  (r.1, OperationResult.ofBool (r.2 == ScanEnd.finished))

/-- Modelled from the spec: `CheckFileChangesOperation::doCheckFileChanges` (declared at
logdataworker.h:314), the digest classifier: `Unchanged` "if current size == fullSize
and recomputed header+tail digests match", `DataAdded` if the file grew and the
recomputed digests still match, and otherwise "(size shrank, or header digest no longer
matches, or tail content at the old tail offset no longer matches what's now there):
Truncated". The tail is compared in the grown case too, `Truncated` being "current size
< last known size, or header/tail digests no longer match a pure-append pattern". -/
def doCheckFileChanges (env : IndexingEnv) (indexedHash : IndexedHash) (file : List Nat) :
    MonitoredFileStatus :=
  let realFileSize := file.length
  let headerDigest := digestOf env (file.take indexedHash.headerSize)
  let tailDigest :=
    digestOf env ((file.drop indexedHash.tailOffset).take indexedHash.tailSize)
  let digestsMatch :=
    headerDigest == indexedHash.headerDigest && tailDigest == indexedHash.tailDigest
  if realFileSize == indexedHash.size && digestsMatch then MonitoredFileStatus.Unchanged
  else if realFileSize > indexedHash.size && digestsMatch then MonitoredFileStatus.DataAdded
  else MonitoredFileStatus.Truncated

/-- Modelled from the spec: `CheckFileChangesOperation::run` (declared at
logdataworker.h:311): it "runs only the Digest Classifier (no Block Scanner) and reports
the ChangeStatus"; the index is left as it is. -/
def CheckFileChangesOperation.run (env : IndexingEnv) (file : List Nat) (data : IndexingData) :
    IndexingData × OperationResult :=
  (data, OperationResult.ofStatus (doCheckFileChanges env data.getHash file))

/-- The tab-width convention of the display layer with tab stops every `tabStop`
columns: a tab (byte 9) at `column` adds the spaces up to the next tab stop, less the
one column the tab itself takes; no other byte adds any. -/
def tabExpansion (tabStop column byte : Nat) : Nat :=
  if byte = 9 then tabStop - column % tabStop - 1 else 0

/-- A concrete environment to evaluate the scanner on: the digest step `h * 31 + byte`,
the tab-width convention of 8 columns, a detector that answers codec 1 for a block that
begins with the byte order mark `FF FE` and codec 0 otherwise, and a header and a tail
of 4 bytes. Codec 0 has one byte per character, codec 1 two bytes per character, and
codec 2 is of variable width: a byte from 128 to 191 continues a character. -/
def sampleEnv : IndexingEnv where
  mix := fun h byte => h * 31 + byte
  additionalSpaces := tabExpansion 8
  detectEncoding := fun block => if List.isPrefixOf [255, 254] block then 1 else 0
  textLength := fun params text =>
    if params.codec = some 1 then text.length / 2
    else if params.codec = some 2 then (text.filter fun byte => byte < 128 || 192 ≤ byte).length
    else text.length
  headerSize := 4
  tailSize := 4

/-- The bytes of a text. -/
def bytesOf (text : String) : List Nat :=
  text.toList.map Char.toNat

/-- The line index a record of which is `h`: the recorded size is the size of `file`,
the header is a leading part of it, the tail lies inside it, and the two digests are
those of the header and tail bytes of `file`. -/
def IndexedHash.RecordedFrom (env : IndexingEnv) (h : IndexedHash) (file : List Nat) : Prop :=
  h.size = file.length ∧ h.headerSize ≤ file.length ∧ h.tailOffset + h.tailSize ≤ file.length ∧
  h.headerDigest = digestOf env (file.take h.headerSize) ∧
  h.tailDigest = digestOf env ((file.drop h.tailOffset).take h.tailSize)

instance (env : IndexingEnv) (h : IndexedHash) (file : List Nat) :
    Decidable (h.RecordedFrom env file) := by
  unfold IndexedHash.RecordedFrom; infer_instance

/-- Two scanner states agree on where the current line starts, on the additional spaces
counted on it so far and on the encoding parameters: what the scan of the following
bytes depends on. -/
def SamePlace (s t : IndexingState) : Prop :=
  s.pos = t.pos ∧ s.additional_spaces = t.additional_spaces
    ∧ s.encodingParams = t.encodingParams

instance (s t : IndexingState) : Decidable (SamePlace s t) := by
  unfold SamePlace; infer_instance

/-- The interrupt flag of a run that nobody cancels. -/
def neverInterrupted : Nat → Bool :=
  fun _ => false

/-- The full digest recorded in the index is the digest of the bytes folded so far. -/
def IndexingData.DigestInSync (d : IndexingData) : Prop :=
  d.hash_.fullDigest = d.hashBuilder_.digest

instance (d : IndexingData) : Decidable d.DigestInSync := by
  unfold IndexingData.DigestInSync; infer_instance

/-- The first block that holds a byte, the one the encoding is guessed from. -/
def firstNonEmptyBlock : List (List Nat) → Option (List Nat)
  | [] => none
  | block :: rest => if block.isEmpty then firstNonEmptyBlock rest else some block

/-- The encoding guess that a scan of `blocks` ends with, from the forced encoding and
the guess it starts with: no guess is made under a forced encoding, a guess is kept,
and otherwise the guess is that of the detector on the first non-empty block. -/
def scanGuess (env : IndexingEnv) (forced guess : Option Nat) (blocks : List (List Nat)) :
    Option Nat :=
  if forced.isSome then guess
  else guess.orElse (fun _ => (firstNonEmptyBlock blocks).map env.detectEncoding)

/-- The codec that a scan of `blocks` counts the text in: the forced encoding when there
is one, and otherwise the guess the scan ends with. -/
def scanCodec (env : IndexingEnv) (forced guess : Option Nat) (blocks : List (List Nat)) :
    Option Nat :=
  forced.orElse (fun _ => scanGuess env forced guess blocks)

/-- The scanner state at the start of a line at `initialPosition`, the text being
counted in `codec`. -/
def scanStart (initialPosition : Nat) (codec : Option Nat) : IndexingState :=
  { pos := initialPosition, encodingParams := EncodingParameters.mk codec }

/-- The line index left by a full index of `file` that nobody cancels and no read of
which fails. -/
def fullIndex (env : IndexingEnv) (blockSize : Nat) (file : List Nat)
    (forcedEncoding : Option Nat) (data : IndexingData) : IndexingData :=
  (FullIndexOperation.run env neverInterrupted none blockSize file forcedEncoding data).1

/-- The line index left by a partial index of `file` that nobody cancels and no read of
which fails. -/
def partialIndex (env : IndexingEnv) (blockSize : Nat) (file : List Nat)
    (data : IndexingData) : IndexingData :=
  (PartialIndexOperation.run env neverInterrupted none blockSize file data).1

/-- The invariant of the line index between index operations: the line positions are
strictly increasing and none lies after the indexed size. -/
def IndexingData.WellFormed (d : IndexingData) : Prop :=
  d.linePosition_.Pairwise (· < ·) ∧ ∀ p ∈ d.linePosition_, p ≤ d.hash_.size

instance (d : IndexingData) : Decidable d.WellFormed := by
  unfold IndexingData.WellFormed; infer_instance

/-! ## Definitions: the crawler widget (crawlerwidget.cpp)

`crawlerwidget.h` is not among the sources: the members of `CrawlerWidget` are the ones
the member functions of `crawlerwidget.cpp` read and write. The checked state of a
button is a Boolean, the calls made on the collaborators (`logFilteredData_`,
`filteredView`, `overview_`, the application) are kept in order in `calls`, and the
signals emitted are kept in order in `emitted`. -/

/-- The values of `CrawlerWidget::SearchState::State` that `crawlerwidget.cpp` names. -/
inductive SearchState.State where
  | NoSearch
  | Static
  | Autorefreshing
  | FileTruncated
  | TruncatedAutorefreshing
deriving DecidableEq, Repr

/-- The members of `CrawlerWidget::SearchState` that `crawlerwidget.cpp:1289-1345` reads
and writes. -/
structure SearchState where
  state_ : SearchState.State
  autoRefreshRequested_ : Bool
deriving DecidableEq, Repr

/-- Source: `CrawlerWidget::SearchState::resetState` (crawlerwidget.cpp:1292). -/
def SearchState.resetState (s : SearchState) : SearchState :=
  { s with state_ := SearchState.State.NoSearch }

/-- Source: `CrawlerWidget::SearchState::setAutorefresh` (crawlerwidget.cpp:1297). -/
def SearchState.setAutorefresh (s : SearchState) (refresh : Bool) : SearchState :=
  let s := { s with autoRefreshRequested_ := refresh }
  if refresh then
    if s.state_ = SearchState.State.Static then
      { s with state_ := SearchState.State.Autorefreshing }
    else s
  else
    if s.state_ = SearchState.State.Autorefreshing then
      { s with state_ := SearchState.State.Static }
    else if s.state_ = SearchState.State.TruncatedAutorefreshing then
      { s with state_ := SearchState.State.FileTruncated }
    else s

/-- Source: `CrawlerWidget::SearchState::truncateFile` (crawlerwidget.cpp:1317). -/
def SearchState.truncateFile (s : SearchState) : SearchState :=
  if s.state_ = SearchState.State.Autorefreshing
      ∨ s.state_ = SearchState.State.TruncatedAutorefreshing then
    { s with state_ := SearchState.State.TruncatedAutorefreshing }
  else
    { s with state_ := SearchState.State.FileTruncated }

/-- Source: `CrawlerWidget::SearchState::changeExpression` (crawlerwidget.cpp:1327). -/
def SearchState.changeExpression (s : SearchState) : SearchState :=
  if s.state_ = SearchState.State.Autorefreshing then
    { s with state_ := SearchState.State.Static }
  else s

/-- Source: `CrawlerWidget::SearchState::stopSearch` (crawlerwidget.cpp:1333). -/
def SearchState.stopSearch (s : SearchState) : SearchState :=
  if s.state_ = SearchState.State.Autorefreshing then
    { s with state_ := SearchState.State.Static }
  else s

/-- Source: `CrawlerWidget::SearchState::startSearch` (crawlerwidget.cpp:1339). -/
def SearchState.startSearch (s : SearchState) : SearchState :=
  if s.autoRefreshRequested_ then
    { s with state_ := SearchState.State.Autorefreshing }
  else
    { s with state_ := SearchState.State.Static }

/-- The two states in which the search is refreshed when the file has been loaded
again: `Autorefreshing` and `TruncatedAutorefreshing`. -/
def SearchState.State.isAutorefreshing : SearchState.State → Bool
  | SearchState.State.Autorefreshing => true
  | SearchState.State.TruncatedAutorefreshing => true
  | _ => false

/-- The values of `DataStatus` that `crawlerwidget.cpp` names. -/
inductive DataStatus where
  | OLD_DATA
  | NEW_DATA
  | NEW_FILTERED_DATA
deriving DecidableEq, Repr

/-- A `QPalette`: the error palette of the widget (`errorPalette`, dark yellow,
crawlerwidget.cpp:74) or another one. -/
inductive QPalette where
  | errorPalette
  | other (id : Nat)
deriving DecidableEq, Repr

/-- The state of the `InfoLine` label that the widget reads and writes: its text, its
palette and whether it is shown. -/
structure InfoLine where
  text : String
  palette : QPalette
  visible : Bool
deriving DecidableEq, Repr

/-- A call made by the widget on one of its collaborators. -/
inductive Call where
  | interruptSearch
  | processEvents
  | clearSearch
  | clearMarks
  | filteredViewUpdateData
  | overviewUpdateData (nbLine : Nat)
  | runSearch (regexpPattern : RegularExpressionPattern) (startLine endLine : Nat)
deriving DecidableEq, Repr

/-- A signal emitted by the widget. -/
inductive Signal where
  | dataStatusChanged (status : DataStatus)
deriving DecidableEq, Repr

/-- The members of `CrawlerWidget` and the state of its child widgets that the
embedded member functions read and write; `logDataNbLine` is `logData_->getNbLine()`
and `filteredNbMatches` is `logFilteredData_->getNbMatches()`. -/
structure CrawlerWidget where
  matchCaseButton : Bool
  useRegexpButton : Bool
  inverseButton : Bool
  searchRefreshButton : Bool
  stopButtonEnabled : Bool
  stopButtonVisible : Bool
  searchButtonVisible : Bool
  searchInfoLine : InfoLine
  searchInfoLineDefaultPalette : QPalette
  nbMatches_ : Nat
  searchState_ : SearchState
  searchStartLine_ : Nat
  searchEndLine_ : Nat
  dataStatus_ : DataStatus
  logDataNbLine : Nat
  filteredNbMatches : Nat
  calls : List Call
  emitted : List Signal
deriving DecidableEq, Repr

/-- What the widget takes from outside: the regular expression library, the automaton
engine when the build has one (`KLOGG_HAS_HS`), `QRegularExpression::escape`, the
translation `tr` of a user-visible text, and the default argument of
`printSearchInfoMessage`, which is declared in `crawlerwidget.h`. -/
structure WidgetEnv where
  engine : RegexEngine
  hs : Option HsEngine
  escape : String → String
  tr : String → String
  defaultNbMatches : Nat

/-- The pair `(isValidExpression, errorString)` of `replaceCurrentSearch`
(crawlerwidget.cpp:1147-1164) in the build at hand. -/
def WidgetEnv.checkExpression (env : WidgetEnv) (pattern : String)
    (matchCaseChecked inverseChecked : Bool) : Bool × String :=
  match env.hs with
  | some hs => Klogg.checkExpression env.engine hs pattern matchCaseChecked inverseChecked
  | none => checkExpressionFallbackBuild env.engine pattern matchCaseChecked inverseChecked

/-- The record of a call on a collaborator. -/
def CrawlerWidget.call (w : CrawlerWidget) (c : Call) : CrawlerWidget :=
  { w with calls := w.calls ++ [c] }

/-- Source: `CrawlerWidget::printSearchInfoMessage` (crawlerwidget.cpp:1220); the two
`arg` calls fill the place markers `%1` and `%2` of the translated text. -/
def CrawlerWidget.printSearchInfoMessage (env : WidgetEnv) (w : CrawlerWidget)
    (nbMatches : Nat) : CrawlerWidget :=
  let text :=
    match w.searchState_.state_ with
    | SearchState.State.NoSearch => ""
    | SearchState.State.Static | SearchState.State.Autorefreshing =>
      ((env.tr "%1 match%2 found.").replace "%1" (toString nbMatches)).replace "%2"
        (if nbMatches > 1 then "es" else "")
    | SearchState.State.FileTruncated | SearchState.State.TruncatedAutorefreshing =>
      env.tr "File truncated on disk"
  { w with searchInfoLine :=
      { text := text, palette := w.searchInfoLineDefaultPalette, visible := !text.isEmpty } }

/-- Source: `CrawlerWidget::changeDataStatus` (crawlerwidget.cpp:1246). -/
def CrawlerWidget.changeDataStatus (w : CrawlerWidget) (status : DataStatus) : CrawlerWidget :=
  if status ≠ w.dataStatus_
      ∧ ¬ (w.dataStatus_ = DataStatus.NEW_FILTERED_DATA ∧ status = DataStatus.NEW_DATA) then
    let w := { w with dataStatus_ := status }
    { w with emitted := w.emitted ++ [Signal.dataStatusChanged w.dataStatus_] }
  else w

/-- Source: `CrawlerWidget::searchTextChangeHandler` (crawlerwidget.cpp:729). -/
def CrawlerWidget.searchTextChangeHandler (env : WidgetEnv) (w : CrawlerWidget) :
    CrawlerWidget :=
  let w := { w with searchState_ := w.searchState_.changeExpression }
  w.printSearchInfoMessage env w.filteredNbMatches

/-- Source: `CrawlerWidget::replaceCurrentSearch` (crawlerwidget.cpp:1109). The events
handled by `processEvents` are not followed: the call is recorded. -/
def CrawlerWidget.replaceCurrentSearch (env : WidgetEnv) (w : CrawlerWidget)
    (searchText : String) : CrawlerWidget :=
  let w := w.call Call.interruptSearch
  let w := w.call Call.processEvents
  let w := { w with nbMatches_ := 0 }
  let w := w.call Call.clearSearch
  let w := w.call Call.filteredViewUpdateData
  let w := w.call (Call.overviewUpdateData w.logDataNbLine)
  if !searchText.isEmpty then
    let pattern := if !w.useRegexpButton then env.escape searchText else searchText
    let regexpPattern := RegularExpressionPattern.mk pattern w.matchCaseButton w.inverseButton
    let checked := env.checkExpression pattern w.matchCaseButton w.inverseButton
    let isValidExpression := checked.1
    let errorString := checked.2
    if isValidExpression then
      let w := { w with stopButtonEnabled := true }
      let w := { w with stopButtonVisible := true }
      let w := { w with searchButtonVisible := false }
      let w := w.call (Call.runSearch regexpPattern w.searchStartLine_ w.searchEndLine_)
      let w := { w with searchState_ := w.searchState_.startSearch }
      { w with searchInfoLine := { w.searchInfoLine with visible := false } }
    else
      let w := w.call Call.clearSearch
      let w := w.call Call.filteredViewUpdateData
      let w := { w with searchState_ := w.searchState_.resetState }
      let errorMessage := env.tr "Error in expression"
      let errorMessage := errorMessage ++ ": "
      let errorMessage := errorMessage ++ errorString
      let w := { w with searchInfoLine := { w.searchInfoLine with palette := QPalette.errorPalette } }
      let w := { w with searchInfoLine := { w.searchInfoLine with text := errorMessage } }
      { w with searchInfoLine := { w.searchInfoLine with visible := true } }
  else
    let w := { w with searchState_ := w.searchState_.resetState }
    w.printSearchInfoMessage env env.defaultNbMatches

/-- The patterns passed to `runSearch` among recorded calls, in order. -/
def runSearchPatterns : List Call → List RegularExpressionPattern
  | [] => []
  | Call.runSearch regexpPattern _ _ :: rest => regexpPattern :: runSearchPatterns rest
  | _ :: rest => runSearchPatterns rest

/-- A library and a build to evaluate the widget on: the library that refuses a
back-reference when groups do not capture, no automaton engine, an escape that puts a
backslash before every character that is not a letter, and no translation. -/
def sampleWidgetEnv : WidgetEnv where
  engine := backrefEngine
  hs := none
  escape := fun text =>
    String.mk (text.toList.flatMap fun c => if c.isAlphanum then [c] else [Char.ofNat 92, c])
  tr := fun text => text
  defaultNbMatches := 0

/-- A widget to evaluate the member functions on: "Use regex" and "Match case" checked,
a search of lines 0 to 100 that has found 3 matches and is refreshed automatically. -/
def sampleWidget : CrawlerWidget where
  matchCaseButton := true
  useRegexpButton := true
  inverseButton := false
  searchRefreshButton := true
  stopButtonEnabled := false
  stopButtonVisible := false
  searchButtonVisible := true
  searchInfoLine := InfoLine.mk "3 matches found." (QPalette.other 0) true
  searchInfoLineDefaultPalette := QPalette.other 0
  nbMatches_ := 3
  searchState_ := SearchState.mk SearchState.State.Autorefreshing true
  searchStartLine_ := 0
  searchEndLine_ := 100
  dataStatus_ := DataStatus.OLD_DATA
  logDataNbLine := 100
  filteredNbMatches := 3
  calls := []
  emitted := []

/-! ## Definitions: the command line and the start of the application (main.cpp)

The command line parser (CLI11), the logger (plog) and the application object
(`KloggApp`) are outside the sources: the parser is taken by what it delivers for a
command line that parses and has no `-v`, and the calls made on the application, the
main window and the configuration are kept in order. -/

/-- The plog constant `plog::warning` (value 3 of `plog::Severity`). -/
def plog.warning : Int := 3

/-- The value of a mathematical integer stored in an `int64_t`. -/
def toInt64 (x : Int) : Int :=
  (x + 2 ^ 63) % 2 ^ 64 - 2 ^ 63

/-- What the parser delivers for a command line: whether each flag was given, the
number of times `-d` was given, the two window sizes and the file names as given. -/
structure CommandLine where
  multi : Bool
  loadSession : Bool
  newSession : Bool
  log : Bool
  follow : Bool
  debug : Nat
  windowWidth : Int
  windowHeight : Int
  files : List String
deriving DecidableEq, Repr

/-- Source: `struct CliParameters` (main.cpp:120) with its default member values. -/
structure CliParameters where
  new_session : Bool := false
  load_session : Bool := false
  multi_instance : Bool := false
  log_to_file : Bool := false
  follow_file : Bool := false
  log_level : Int := toInt64 plog.warning
  filenames : List String := []
  window_width : Int := 0
  window_height : Int := 0
deriving DecidableEq, Repr

/-- What `main` takes from outside: `QFile::decodeName`, `QFileInfo::absoluteFilePath`,
`app.isSecondary()` and `config.loadLastSession()`. -/
structure MainEnv where
  decodeName : String → String
  absoluteFilePath : String → String
  isSecondary : Bool
  loadLastSession : Bool

/-- Source: `CliParameters( CLI::App& options, int argc, char* const* argv )`
(main.cpp:135): the flags set their members, the `-d` callback is called with the count
of `-d` when there is one, and the names that decode to a non-empty name are kept as
absolute paths. -/
def CliParameters.parse (env : MainEnv) (cmd : CommandLine) : CliParameters :=
  let p : CliParameters := { }
  let p := { p with multi_instance := cmd.multi }
  let p := { p with load_session := cmd.loadSession }
  let p := { p with new_session := cmd.newSession }
  let p := { p with log_to_file := cmd.log }
  let p := { p with follow_file := cmd.follow }
  let p :=
    if cmd.debug > 0 then
      { p with log_level := toInt64 (toInt64 plog.warning + toInt64 cmd.debug) }
    else p
  let p := { p with window_width := cmd.windowWidth, window_height := cmd.windowHeight }
  { p with filenames :=
      cmd.files.filterMap fun file =>
        let decodedName := env.decodeName file
        if !decodedName.isEmpty then some (env.absoluteFilePath decodedName) else none }

/-- A call made by `main` on the application, the main window or the configuration. -/
inductive AppCall where
  | initLogger (level : Int) (logToFile : Bool)
  | initCrashHandler
  | sendFilesToPrimaryInstance (filenames : List String)
  | getSynced
  | enableLogging
  | applyStyle
  | reloadSession
  | newWindow
  | reloadGeometry
  | showWindow
  | resize (width height : Int)
  | loadInitialFile (filename : String) (followFile : Bool)
  | clearInactiveSessions
  | startBackgroundTasks
  | exec
deriving DecidableEq, Repr

/-- Source: `main` (main.cpp:244-292) from the parsed parameters on: the calls it makes,
in order. -/
def mainCalls (env : MainEnv) (parameters : CliParameters) : List AppCall :=
  let calls := [AppCall.initLogger parameters.log_level parameters.log_to_file,
    AppCall.initCrashHandler]
  if !parameters.multi_instance && env.isSecondary then
    calls ++ [AppCall.sendFilesToPrimaryInstance parameters.filenames] ++ [AppCall.exec]
  else
    let calls := calls ++ [AppCall.getSynced, AppCall.enableLogging, AppCall.applyStyle]
    let session : List AppCall × Bool :=
      if parameters.load_session
          || (parameters.filenames.isEmpty && !parameters.new_session
              && env.loadLastSession) then
        ([AppCall.reloadSession], false)
      else
        ([AppCall.newWindow, AppCall.reloadGeometry, AppCall.showWindow], true)
    let calls := calls ++ session.1
    let startNewSession := session.2
    let calls :=
      if parameters.window_width > 0 && parameters.window_height > 0 then
        calls ++ [AppCall.resize parameters.window_width parameters.window_height]
      else calls
    let calls :=
      calls ++ parameters.filenames.map fun filename =>
        AppCall.loadInitialFile filename parameters.follow_file
    let calls := if startNewSession then calls ++ [AppCall.clearInactiveSessions] else calls
    calls ++ [AppCall.startBackgroundTasks] ++ [AppCall.exec]

/-- Source: `main` (main.cpp:224) on a command line that parses: the calls it makes. -/
def main (env : MainEnv) (cmd : CommandLine) : List AppCall :=
  mainCalls env (CliParameters.parse env cmd)

/-- The log level that `main` passes to `initLogger`. -/
def logLevel (env : MainEnv) (cmd : CommandLine) : Int :=
  (CliParameters.parse env cmd).log_level

/-- A first instance of the application whose configuration asks to load the last
session; names are decoded and resolved as they are. -/
def sampleMainEnv : MainEnv where
  decodeName := fun name => name
  absoluteFilePath := fun name => name
  isSecondary := false
  loadLastSession := true

/-- The command line without any option or file. -/
def emptyCommandLine : CommandLine where
  multi := false
  loadSession := false
  newSession := false
  log := false
  follow := false
  debug := 0
  windowWidth := 0
  windowHeight := 0
  files := []

/-! ## Definitions: the view context (crawlerwidget.cpp)

`QVariant`, `QVariantMap` and `QJsonDocument` are Qt classes: the variant is taken as
far as `CrawlerWidgetContext` uses it (Booleans, integers, lists, maps), the map keeps
its keys sorted as `QMap` does, and the JSON writer and reader are parameters. -/

/-- A `QVariant`: invalid, a Boolean, an integer, a list or a map. -/
inductive QVariant where
  | invalid
  | bool (b : Bool)
  | number (n : Int)
  | list (items : List QVariant)
  | map (entries : List (String × QVariant))

/-- Qt function `QVariant::toBool`. -/
def QVariant.toBool : QVariant → Bool
  | QVariant.bool b => b
  | QVariant.number n => n != 0
  | _ => false

/-- Qt function `QVariant::toInt`: the integer stored, as an `int` of 32 bits. -/
def QVariant.toInt : QVariant → Int
  | QVariant.bool b => if b then 1 else 0
  | QVariant.number n => (n + 2 ^ 31) % 2 ^ 32 - 2 ^ 31
  | _ => 0

/-- Qt function `QVariant::toUInt`: the integer stored, as an `unsigned int` of 32 bits. -/
def QVariant.toUInt : QVariant → Nat
  | QVariant.bool b => if b then 1 else 0
  | QVariant.number n => (n % 2 ^ 32).toNat
  | _ => 0

/-- Qt function `QVariant::toList`. -/
def QVariant.toList : QVariant → List QVariant
  | QVariant.list items => items
  | _ => []

/-- Qt function `QVariant::toMap`. -/
def QVariant.toMap : QVariant → List (String × QVariant)
  | QVariant.map entries => entries
  | _ => []

/-- Qt function `QMap::contains` on a `QVariantMap`. -/
def QVariantMap.contains : List (String × QVariant) → String → Bool
  | [], _ => false
  | (k, _) :: rest, key => k == key || QVariantMap.contains rest key

/-- Qt function `QMap::value` on a `QVariantMap`: the value of the key, an invalid
variant when the key is absent. -/
def QVariantMap.value : List (String × QVariant) → String → QVariant
  | [], _ => QVariant.invalid
  | (k, v) :: rest, key => if k == key then v else QVariantMap.value rest key

/-- Qt comparison `operator<` of two `QString`, character by character. -/
def lexLess : List Char → List Char → Bool
  | [], [] => false
  | [], _ :: _ => true
  | _ :: _, [] => false
  | a :: as, b :: bs =>
    if a.toNat < b.toNat then true
    else if b.toNat < a.toNat then false
    else lexLess as bs

/-- Qt assignment `map[ key ] = value` on a `QVariantMap`, whose keys are kept sorted. -/
def QVariantMap.insert : List (String × QVariant) → String → QVariant →
    List (String × QVariant)
  | [], key, value => [(key, value)]
  | (k, v) :: rest, key, value =>
    if lexLess key.toList k.toList then (key, value) :: (k, v) :: rest
    else if key = k then (key, value) :: rest
    else (k, v) :: QVariantMap.insert rest key value

/-- Qt function `QString::startsWith( QChar )`. -/
def startsWithChar (s : String) (c : Char) : Bool :=
  s.toList.head? == some c

/-- What the view context takes from outside: the compact JSON text of a variant
(`QJsonDocument::fromVariant( v ).toJson( QJsonDocument::Compact )`), the variant read
from a JSON text (`QJsonDocument::fromJson( json.toLatin1() ).toVariant()`), the texts
captured by a regular expression in a string when it matches, `QString::toInt`, whether
the configured `mainRegexpType()` is `ExtendedRegexp`, and the value found in a `bool`
member that was not initialised. -/
structure ContextEnv where
  toJson : QVariant → String
  fromJson : String → QVariant
  captured : String → String → Option (List String)
  toInt : String → Int
  mainRegexpIsExtended : Bool
  indeterminate : Bool

/-- The members of `class CrawlerWidgetContext` (crawlerwidget.cpp:134-143); a marked
line is the value of a `LineNumber`. -/
structure CrawlerWidgetContext where
  sizes_ : List Int
  ignore_case_ : Bool
  auto_refresh_ : Bool
  follow_file_ : Bool
  use_regexp_ : Bool
  inverse_regexp_ : Bool
  marks_ : List Nat
deriving DecidableEq, Repr

/-- Source: `CrawlerWidgetContext( QList<int> sizes, bool ignore_case, ... )`
(crawlerwidget.cpp:82), the construction from the values passed. -/
def CrawlerWidgetContext.ofValues (sizes : List Int)
    (ignore_case auto_refresh follow_file use_regexp inverse_regexp : Bool)
    (markedLines : List Nat) : CrawlerWidgetContext :=
  { sizes_ := sizes
    ignore_case_ := ignore_case
    auto_refresh_ := auto_refresh
    follow_file_ := follow_file
    use_regexp_ := use_regexp
    inverse_regexp_ := inverse_regexp
    marks_ := [] ++ markedLines.map fun m => m }

/-- The members of a context before the body of the constructor from a string runs:
empty lists and `bool` members that are not initialised. -/
def CrawlerWidgetContext.uninitialised (env : ContextEnv) : CrawlerWidgetContext :=
  { sizes_ := []
    ignore_case_ := env.indeterminate
    auto_refresh_ := env.indeterminate
    follow_file_ := env.indeterminate
    use_regexp_ := env.indeterminate
    inverse_regexp_ := env.indeterminate
    marks_ := [] }

/-- The map `properies` built by `CrawlerWidgetContext::toString`
(crawlerwidget.cpp:1450-1458). -/
def CrawlerWidgetContext.properties (c : CrawlerWidgetContext) : List (String × QVariant) :=
  let toVariantListInt := fun (list : List Int) => list.map fun item => QVariant.number item
  let toVariantListUInt := fun (list : List Nat) =>
    list.map fun (item : Nat) => QVariant.number (Int.ofNat item)
  let properies : List (String × QVariant) := []
  let properies := QVariantMap.insert properies "S" (QVariant.list (toVariantListInt c.sizes_))
  let properies := QVariantMap.insert properies "IC" (QVariant.bool c.ignore_case_)
  let properies := QVariantMap.insert properies "AR" (QVariant.bool c.auto_refresh_)
  let properies := QVariantMap.insert properies "FF" (QVariant.bool c.follow_file_)
  let properies := QVariantMap.insert properies "RE" (QVariant.bool c.use_regexp_)
  let properies := QVariantMap.insert properies "IR" (QVariant.bool c.inverse_regexp_)
  QVariantMap.insert properies "M" (QVariant.list (toVariantListUInt c.marks_))

/-- Source: `CrawlerWidgetContext::toString` (crawlerwidget.cpp:1440). -/
def CrawlerWidgetContext.toString (env : ContextEnv) (c : CrawlerWidgetContext) : String :=
  env.toJson (QVariant.map c.properties)

/-- Source: `CrawlerWidgetContext::loadFromString` (crawlerwidget.cpp:1360). -/
def CrawlerWidgetContext.loadFromString (env : ContextEnv) (c : CrawlerWidgetContext)
    (string : String) : CrawlerWidgetContext :=
  let c :=
    match env.captured "S(\\d+):(\\d+)" string with
    | some captured =>
      { c with sizes_ := [env.toInt (captured.getD 1 ""), env.toInt (captured.getD 2 "")] }
    | none => { c with sizes_ := [400, 100] }
  let c :=
    match env.captured "IC(\\d+):AR(\\d+)" string with
    | some captured =>
      { c with
        ignore_case_ := env.toInt (captured.getD 1 "") == 1
        auto_refresh_ := env.toInt (captured.getD 2 "") == 1 }
    | none => { c with ignore_case_ := false, auto_refresh_ := false }
  let c :=
    match env.captured "AR(\\d+):FF(\\d+)" string with
    | some captured => { c with follow_file_ := env.toInt (captured.getD 2 "") == 1 }
    | none => { c with follow_file_ := false }
  { c with use_regexp_ := env.mainRegexpIsExtended }

/-- Source: `CrawlerWidgetContext::loadFromJson` (crawlerwidget.cpp:1404). -/
def CrawlerWidgetContext.loadFromJson (env : ContextEnv) (c : CrawlerWidgetContext)
    (json : String) : CrawlerWidgetContext :=
  let properties := (env.fromJson json).toMap
  let c :=
    if QVariantMap.contains properties "S" then
      let sizes := (QVariantMap.value properties "S").toList
      { c with sizes_ := c.sizes_ ++ sizes.map fun s => s.toInt }
    else c
  let c := { c with ignore_case_ := (QVariantMap.value properties "IC").toBool }
  let c := { c with auto_refresh_ := (QVariantMap.value properties "AR").toBool }
  let c := { c with follow_file_ := (QVariantMap.value properties "FF").toBool }
  let c :=
    if QVariantMap.contains properties "RE" then
      { c with use_regexp_ := (QVariantMap.value properties "RE").toBool }
    else { c with use_regexp_ := env.mainRegexpIsExtended }
  let c :=
    if QVariantMap.contains properties "IR" then
      { c with inverse_regexp_ := (QVariantMap.value properties "IR").toBool }
    else { c with inverse_regexp_ := false }
  if QVariantMap.contains properties "M" then
    let marks := (QVariantMap.value properties "M").toList
    { c with marks_ := c.marks_ ++ marks.map fun m => m.toUInt }
  else c

/-- Source: `CrawlerWidgetContext::CrawlerWidgetContext( const QString& string )`
(crawlerwidget.cpp:1350), the construction from the stored string. -/
def CrawlerWidgetContext.ofString (env : ContextEnv) (string : String) : CrawlerWidgetContext :=
  if startsWithChar string '\x7b' then
    (CrawlerWidgetContext.uninitialised env).loadFromJson env string
  else
    (CrawlerWidgetContext.uninitialised env).loadFromString env string

/-- The compact JSON text of a Boolean or an integer, `null` for any other variant. -/
def writeScalar : QVariant → String
  | QVariant.bool b => if b then "true" else "false"
  | QVariant.number n => toString n
  | _ => "null"

/-- The compact JSON text of a list of Booleans and integers or of one of them. -/
def writeValue : QVariant → String
  | QVariant.list items => "[" ++ ",".intercalate (items.map writeScalar) ++ "]"
  | v => writeScalar v

/-- A writer of compact JSON for the shape of the view context: an object whose values
are Booleans, integers and lists of them. -/
def writeJson : QVariant → String
  | QVariant.map entries =>
    "\x7b" ++ ",".intercalate (entries.map fun e => "\"" ++ e.1 ++ "\":" ++ writeValue e.2)
      ++ "\x7d"
  | v => writeValue v

/-- The value of the decimal digits at the head of a text, after the digits `acc`, and
the rest of the text. -/
def readDigits : List Char → Nat → Nat × List Char
  | [], acc => (acc, [])
  | c :: rest, acc =>
    if c.isDigit then readDigits rest (acc * 10 + (c.toNat - 48)) else (acc, c :: rest)

/-- The Boolean or the integer at the head of a text, and the rest of the text. -/
def readScalar : List Char → Option (QVariant × List Char)
  | 't' :: 'r' :: 'u' :: 'e' :: rest => some (QVariant.bool true, rest)
  | 'f' :: 'a' :: 'l' :: 's' :: 'e' :: rest => some (QVariant.bool false, rest)
  | '-' :: c :: rest =>
    if c.isDigit then
      some (QVariant.number (-((readDigits (c :: rest) 0).1 : Int)), (readDigits (c :: rest) 0).2)
    else none
  | c :: rest =>
    if c.isDigit then
      some (QVariant.number ((readDigits (c :: rest) 0).1 : Int), (readDigits (c :: rest) 0).2)
    else none
  | [] => none

/-- The items of a list up to its closing bracket, and the rest of the text; `fuel`
bounds the number of items. -/
def readItems : Nat → List Char → Option (List QVariant × List Char)
  | 0, _ => none
  | fuel + 1, text =>
    match readScalar text with
    | some (item, ',' :: rest) =>
      match readItems fuel rest with
      | some (items, rest') => some (item :: items, rest')
      | none => none
    | some (item, ']' :: rest) => some ([item], rest)
    | _ => none

/-- The list or the scalar at the head of a text, and the rest of the text. -/
def readValue (text : List Char) : Option (QVariant × List Char) :=
  match text with
  | '[' :: ']' :: rest => some (QVariant.list [], rest)
  | '[' :: rest =>
    match readItems rest.length rest with
    | some (items, rest') => some (QVariant.list items, rest')
    | none => none
  | _ => readScalar text

/-- The characters of a key up to its closing quote, and the rest of the text. -/
def readKey : List Char → Option (List Char × List Char)
  | [] => none
  | c :: rest =>
    if c = '"' then some ([], rest)
    else
      match readKey rest with
      | some (key, rest') => some (c :: key, rest')
      | none => none

/-- The entries of an object up to its closing brace; `fuel` bounds their number. -/
def readEntries : Nat → List Char → Option (List (String × QVariant))
  | 0, _ => none
  | fuel + 1, text =>
    match text with
    | '"' :: afterQuote =>
      match readKey afterQuote with
      | some (key, ':' :: afterColon) =>
        match readValue afterColon with
        | some (value, ',' :: rest) =>
          match readEntries fuel rest with
          | some entries => some ((String.mk key, value) :: entries)
          | none => none
        | some (value, ['\x7d']) => some [(String.mk key, value)]
        | _ => none
      | _ => none
    | _ => none

/-- A reader of compact JSON for the shape of the view context; a text of another shape
is read as an invalid variant. -/
def readJson (json : String) : QVariant :=
  match json.toList with
  | ['\x7b', '\x7d'] => QVariant.map []
  | '\x7b' :: rest =>
    match readEntries rest.length rest with
    | some entries => QVariant.map entries
    | none => QVariant.invalid
  | _ => QVariant.invalid

/-- The reader and writer above, no regular expression that matches, and a configuration
whose regular expressions are extended: an environment to evaluate the view context on. -/
def sampleContextEnv : ContextEnv where
  toJson := writeJson
  fromJson := readJson
  captured := fun _ _ => none
  toInt := fun _ => 0
  mainRegexpIsExtended := true
  indeterminate := false

/-- A view context to evaluate on: two splitter sizes, three flags set and two marked
lines. -/
def sampleContext : CrawlerWidgetContext :=
  CrawlerWidgetContext.ofValues [400, 100] true false true true false [3, 17]

/-! ## Definitions: the truncated file and the search state machine (crawlerwidget.cpp)

The handler of the `fileChanged` signal, and the sequences of calls of the member
functions of `SearchState`. The state a `SearchState` is constructed in is set in
`crawlerwidget.h`, which is not among the sources: it is a parameter of `run`. -/

/-- Source: `CrawlerWidget::fileChangedHandler` (crawlerwidget.cpp:664);
`printSearchInfoMessage()` is called with its default argument. -/
def CrawlerWidget.fileChangedHandler (env : WidgetEnv) (w : CrawlerWidget)
    (status : MonitoredFileStatus) : CrawlerWidget :=
  if status = MonitoredFileStatus.Truncated then
    let w := w.call Call.clearMarks
    if !w.searchInfoLine.text.isEmpty then
      let w := w.call Call.clearSearch
      let w := w.call Call.filteredViewUpdateData
      let w := { w with searchState_ := w.searchState_.truncateFile }
      let w := w.printSearchInfoMessage env env.defaultNbMatches
      { w with nbMatches_ := 0 }
    else w
  else w

/-- A call of one of the member functions of `SearchState` that change it
(crawlerwidget.cpp:1292-1345). -/
inductive SearchState.Op where
  | resetState
  | setAutorefresh (refresh : Bool)
  | truncateFile
  | changeExpression
  | stopSearch
  | startSearch
deriving DecidableEq, Repr

/-- The search state after one call. -/
def SearchState.step (s : SearchState) : SearchState.Op → SearchState
  | SearchState.Op.resetState => s.resetState
  | SearchState.Op.setAutorefresh refresh => s.setAutorefresh refresh
  | SearchState.Op.truncateFile => s.truncateFile
  | SearchState.Op.changeExpression => s.changeExpression
  | SearchState.Op.stopSearch => s.stopSearch
  | SearchState.Op.startSearch => s.startSearch

/-- The search state after a sequence of calls, made in order from `s`. -/
def SearchState.run (s : SearchState) : List SearchState.Op → SearchState
  | [] => s
  | op :: ops => (s.step op).run ops

/-- The encodings of a scanner state follow those of the index: the guess is the one
stored in the index, the codec of the text is the forced encoding when there is one and
the guess otherwise, and the encoding parameters are those of that codec. -/
def CodecInv (data : IndexingData) (state : IndexingState) : Prop :=
  data.encodingGuess_ = state.encodingGuess
    ∧ state.fileTextCodec = data.encodingForced_.orElse (fun _ => state.encodingGuess)
    ∧ state.encodingParams = EncodingParameters.mk state.fileTextCodec

/-- The codec that a scan in blocks of `blockSize` bytes counts the text in, `rest`
being the bytes from the start of the scan on: the forced encoding when there is one,
else the guess already stored in the index when there is one, else the guess of the
detector on the first block read, when there is any byte to read. -/
def readCodec (env : IndexingEnv) (blockSize : Nat) (forced guess : Option Nat)
    (rest : List Nat) : Option Nat :=
  match forced, guess with
  | some codec, _ => some codec
  | none, some codec => some codec
  | none, none => if rest = [] then none else some (env.detectEncoding (rest.take blockSize))

/-- The codec that a full index of `file` in blocks of `blockSize` bytes counts the text
in: the forced encoding when there is one, and otherwise the guess of the detector on
the first block of the file. -/
def fullIndexCodec (env : IndexingEnv) (blockSize : Nat) (file : List Nat)
    (forcedEncoding : Option Nat) : Option Nat :=
  readCodec env blockSize forcedEncoding none file

/-! ## Theorems: regular expressions -/

/-- C1: for every pattern text, case-sensitivity flag and line (a `QString` or UTF-8
bytes), the matcher built with `isExclude = true` answers the negation of the matcher
built from the same pattern with `isExclude = false`, and the latter answers exactly
whether the regular expression matches the line. -/
theorem exclude_hasMatch_is_negation (engine : RegexEngine) (pattern : String)
    (isCaseSensitive : Bool) (line : String) (utf8Line : List Nat) :
    (DefaultRegularExpressionMatcher.ofPattern
        (RegularExpressionPattern.mk pattern isCaseSensitive true)).hasMatch engine line
      = !(DefaultRegularExpressionMatcher.ofPattern
        (RegularExpressionPattern.mk pattern isCaseSensitive false)).hasMatch engine line
    ∧ (DefaultRegularExpressionMatcher.ofPattern
        (RegularExpressionPattern.mk pattern isCaseSensitive true)).hasMatchUtf8 engine utf8Line
      = !(DefaultRegularExpressionMatcher.ofPattern
        (RegularExpressionPattern.mk pattern isCaseSensitive false)).hasMatchUtf8 engine utf8Line
    ∧ (DefaultRegularExpressionMatcher.ofPattern
        (RegularExpressionPattern.mk pattern isCaseSensitive false)).hasMatch engine line
      = engine.hasMatch
          (RegularExpressionPattern.mk pattern isCaseSensitive false).toQRegularExpression line
    ∧ (DefaultRegularExpressionMatcher.ofPattern
        (RegularExpressionPattern.mk pattern isCaseSensitive false)).hasMatchUtf8 engine utf8Line
      = engine.hasMatch
          (RegularExpressionPattern.mk pattern isCaseSensitive false).toQRegularExpression
          (engine.fromUtf8 utf8Line) := by
  simp [DefaultRegularExpressionMatcher.ofPattern, DefaultRegularExpressionMatcher.hasMatch,
    DefaultRegularExpressionMatcher.hasMatchUtf8,
    RegularExpressionPattern.toQRegularExpression]

/-- C8: in a build without the automaton engine, the matcher created by
`HsRegularExpression(p).createMatcher()` is the matcher `DefaultRegularExpressionMatcher(p)`
(same pattern text, same options, same exclude flag), so both give the same `hasMatch` on
every line, and `isValid()` is the validity of that matcher's regular expression. -/
theorem createMatcher_eq_default_matcher (engine : RegexEngine) (p : RegularExpressionPattern)
    (line : String) (utf8Line : List Nat) :
    (HsRegularExpression.ofPattern p).createMatcher
      = MatcherVariant.default (DefaultRegularExpressionMatcher.ofPattern p)
    ∧ (HsRegularExpression.ofPattern p).createMatcher.hasMatch engine line
      = (DefaultRegularExpressionMatcher.ofPattern p).hasMatch engine line
    ∧ (HsRegularExpression.ofPattern p).createMatcher.hasMatchUtf8 engine utf8Line
      = (DefaultRegularExpressionMatcher.ofPattern p).hasMatchUtf8 engine utf8Line
    ∧ (HsRegularExpression.ofPattern p).createMatcher.matcher.regexp_.pattern = p.pattern
    ∧ (HsRegularExpression.ofPattern p).createMatcher.matcher.regexp_.patternOptions
      = p.toQRegularExpression.patternOptions
    ∧ (HsRegularExpression.ofPattern p).createMatcher.matcher.isExclude_ = p.isExclude
    ∧ (HsRegularExpression.ofPattern p).isValid engine
      = engine.isValid (HsRegularExpression.ofPattern p).createMatcher.matcher.regexp_ := by
  have h : (HsRegularExpression.ofPattern p).createMatcher
      = MatcherVariant.default (DefaultRegularExpressionMatcher.ofPattern p) := rfl
  refine ⟨h, ?_, ?_, ?_, ?_, ?_, ?_⟩ <;> rw [h] <;> rfl

/-- C9: the conversion of a pattern to the fallback regular expression keeps the pattern
text, sets the case-insensitive option exactly when `isCaseSensitive` is false, always
sets the unicode-properties and the don't-capture options and no other, and does not
depend on `isExclude`. -/
theorem toQRegularExpression_fields (p : RegularExpressionPattern) :
    p.toQRegularExpression.pattern = p.pattern
    ∧ testFlag p.toQRegularExpression.patternOptions CaseInsensitiveOption
        = !p.isCaseSensitive
    ∧ testFlag p.toQRegularExpression.patternOptions UseUnicodePropertiesOption = true
    ∧ testFlag p.toQRegularExpression.patternOptions DontCaptureOption = true
    ∧ p.toQRegularExpression.patternOptions
        = UseUnicodePropertiesOption + DontCaptureOption
          + (if p.isCaseSensitive then 0 else CaseInsensitiveOption)
    ∧ ∀ isExclude : Bool,
        (RegularExpressionPattern.mk p.pattern p.isCaseSensitive isExclude).toQRegularExpression
          = p.toQRegularExpression := by
  obtain ⟨text, isCaseSensitive, isExclude⟩ := p
  cases isCaseSensitive <;>
    simp [RegularExpressionPattern.toQRegularExpression, testFlag, CaseInsensitiveOption,
      DontCaptureOption, UseUnicodePropertiesOption] <;> decide

/-- C10, the code at the failing input: for the search text `(a)\1` with "Match case"
checked and an automaton engine that rejects it, the validity check compiles the text
with the unicode-properties option alone (64), not with the options of the conversion
that builds the fallback matcher (96, don't-capture included); with a library that
refuses a numbered back-reference to a group that does not capture, the check accepts
the pattern although the regular expression of the matcher is not valid. -/
theorem fallback_check_not_the_matcher_regexp :
    (fallbackCheckRegexp "(a)\\1" true).patternOptions = 64
    ∧ (RegularExpressionPattern.mk "(a)\\1" true false).toQRegularExpression.patternOptions = 96
    ∧ fallbackCheckRegexp "(a)\\1" true
        ≠ (RegularExpressionPattern.mk "(a)\\1" true false).toQRegularExpression
    ∧ rejectingHs.isValid (RegularExpressionPattern.mk "(a)\\1" true false) = false
    ∧ (checkExpression backrefEngine rejectingHs "(a)\\1" true false).1 = true
    ∧ backrefEngine.isValid
        (DefaultRegularExpressionMatcher.ofPattern
          (RegularExpressionPattern.mk "(a)\\1" true false)).regexp_ = false
    ∧ (checkExpressionFallbackBuild backrefEngine "(a)\\1" true false).1 = false := by
  refine ⟨by decide, by decide, by decide, rfl, by decide, by decide, by decide⟩

/-! ## Theorems: the scan of a block -/

theorem SamePlace.refl (s : IndexingState) : SamePlace s s :=
  ⟨rfl, rfl, rfl⟩

theorem SamePlace.symm {s t : IndexingState} (h : SamePlace s t) : SamePlace t s :=
  ⟨h.1.symm, h.2.1.symm, h.2.2.symm⟩

theorem SamePlace.trans {s t u : IndexingState} (h : SamePlace s t) (k : SamePlace t u) :
    SamePlace s u :=
  ⟨h.1.trans k.1, h.2.1.trans k.2.1, h.2.2.trans k.2.2⟩

/-- Scanning `a ++ b` is scanning `a` and then `b` from the state `a` leaves. -/
theorem parseBytes_append (env : IndexingEnv) (file : List Nat) (a b : List Nat) :
    ∀ (o : Nat) (s : IndexingState),
      parseBytes env file o (a ++ b) s
        = ((parseBytes env file o a s).1
              ++ (parseBytes env file (o + a.length) b (parseBytes env file o a s).2).1,
            (parseBytes env file (o + a.length) b (parseBytes env file o a s).2).2) := by
  induction a with
  | nil => intro o s; simp [parseBytes]
  | cons c rest ih =>
    intro o s
    have e : o + 1 + rest.length = o + (rest.length + 1) := by omega
    by_cases hc : c = lineFeed
    · simp only [List.cons_append, parseBytes, hc, if_true, List.length_cons, List.append_eq]
      rw [ih, e]
    · simp only [List.cons_append, parseBytes, hc, if_false, List.length_cons, List.append_eq]
      rw [ih, e]

/-- The line ends found and the place reached depend on the state only through the
place it starts from. -/
theorem parseBytes_congr (env : IndexingEnv) (file : List Nat) (b : List Nat) :
    ∀ (o : Nat) (s t : IndexingState), SamePlace s t →
      (parseBytes env file o b s).1 = (parseBytes env file o b t).1
        ∧ SamePlace (parseBytes env file o b s).2 (parseBytes env file o b t).2 := by
  induction b with
  | nil => intro o s t h; exact ⟨rfl, h⟩
  | cons c rest ih =>
    intro o s t h
    by_cases hc : c = lineFeed
    · simp only [parseBytes, hc, if_true]
      have := ih (o + 1)
        { s with end_ := o,
                 max_length := max s.max_length
                   (env.textLength s.encodingParams ((file.drop s.pos).take (o - s.pos)) + s.additional_spaces),
                 pos := o + 1, additional_spaces := 0 }
        { t with end_ := o,
                 max_length := max t.max_length
                   (env.textLength t.encodingParams ((file.drop t.pos).take (o - t.pos)) + t.additional_spaces),
                 pos := o + 1, additional_spaces := 0 } ⟨rfl, rfl, h.2.2⟩
      exact ⟨by rw [this.1], this.2⟩
    · simp only [parseBytes, hc, if_false]
      apply ih
      refine ⟨h.1, ?_, h.2.2⟩
      simp only [h.1, h.2.1, h.2.2]

/-- The line ends found and the start of the line reached do not depend on the encoding:
they are the same from two states that agree on the start of the current line. -/
theorem parseBytes_positions (env : IndexingEnv) (file : List Nat) (b : List Nat) :
    ∀ (o : Nat) (s t : IndexingState), s.pos = t.pos →
      (parseBytes env file o b s).1 = (parseBytes env file o b t).1
        ∧ (parseBytes env file o b s).2.pos = (parseBytes env file o b t).2.pos := by
  induction b with
  | nil => intro o s t h; exact ⟨rfl, h⟩
  | cons c rest ih =>
    intro o s t h
    by_cases hc : c = lineFeed
    · simp only [parseBytes, hc, if_true]
      have := ih (o + 1)
        { s with end_ := o,
                 max_length := max s.max_length
                   (env.textLength s.encodingParams ((file.drop s.pos).take (o - s.pos)) + s.additional_spaces),
                 pos := o + 1, additional_spaces := 0 }
        { t with end_ := o,
                 max_length := max t.max_length
                   (env.textLength t.encodingParams ((file.drop t.pos).take (o - t.pos)) + t.additional_spaces),
                 pos := o + 1, additional_spaces := 0 } rfl
      exact ⟨by rw [this.1], this.2⟩
    · simp only [parseBytes, hc, if_false]
      exact ih _ _ _ h

/-- The scan leaves the size of the file and the encodings of the state alone. -/
theorem parseBytes_frame (env : IndexingEnv) (file : List Nat) (b : List Nat) :
    ∀ (o : Nat) (s : IndexingState),
      (parseBytes env file o b s).2.file_size = s.file_size
        ∧ (parseBytes env file o b s).2.encodingGuess = s.encodingGuess
        ∧ (parseBytes env file o b s).2.fileTextCodec = s.fileTextCodec
        ∧ (parseBytes env file o b s).2.encodingParams = s.encodingParams := by
  induction b with
  | nil => intro o s; exact ⟨rfl, rfl, rfl, rfl⟩
  | cons c rest ih =>
    intro o s
    by_cases hc : c = lineFeed
    · simp only [parseBytes, hc, if_true]
      exact ih _ _
    · simp only [parseBytes, hc, if_false]
      exact ih _ _

/-- The longest line after a scan is the longest before it or the longest line that
ends in the scanned bytes. -/
theorem parseBytes_max (env : IndexingEnv) (file : List Nat) (b : List Nat) :
    ∀ (o : Nat) (s t : IndexingState), SamePlace s t →
      (parseBytes env file o b s).2.max_length
        = max s.max_length (parseDataBlock env file o b t).2.max_length := by
  induction b with
  | nil => intro o s t _; simp [parseBytes, parseDataBlock]
  | cons c rest ih =>
    intro o s t h
    by_cases hc : c = lineFeed
    · simp only [parseDataBlock, parseBytes, hc, if_true]
      have hs := ih (o + 1)
        { s with end_ := o,
                 max_length := max s.max_length
                   (env.textLength s.encodingParams ((file.drop s.pos).take (o - s.pos)) + s.additional_spaces),
                 pos := o + 1, additional_spaces := 0 }
        { t with end_ := o,
                 max_length := max 0
                   (env.textLength t.encodingParams ((file.drop t.pos).take (o - t.pos)) + t.additional_spaces),
                 pos := o + 1, additional_spaces := 0 } ⟨rfl, rfl, h.2.2⟩
      have ht := ih (o + 1)
        { t with end_ := o,
                 max_length := max 0
                   (env.textLength t.encodingParams ((file.drop t.pos).take (o - t.pos)) + t.additional_spaces),
                 pos := o + 1, additional_spaces := 0 }
        { t with end_ := o,
                 max_length := max 0
                   (env.textLength t.encodingParams ((file.drop t.pos).take (o - t.pos)) + t.additional_spaces),
                 pos := o + 1, additional_spaces := 0 } ⟨rfl, rfl, rfl⟩
      rw [hs, ht]
      simp only [h.1, h.2.1, h.2.2, Nat.zero_max, max_assoc]
    · simp only [parseDataBlock, parseBytes, hc, if_false]
      have hs := ih (o + 1)
        { s with additional_spaces :=
            s.additional_spaces
              + env.additionalSpaces
                  (env.textLength s.encodingParams ((file.drop s.pos).take (o - s.pos)) + s.additional_spaces) c }
        { t with max_length := 0, additional_spaces :=
            t.additional_spaces
              + env.additionalSpaces
                  (env.textLength t.encodingParams ((file.drop t.pos).take (o - t.pos)) + t.additional_spaces) c }
        ⟨h.1, by simp only [h.1, h.2.1, h.2.2], h.2.2⟩
      rw [hs]
      simp only [parseDataBlock]

/-- The bytes of a range that lies in a leading part on which two files agree are the
same in the two files. -/
theorem drop_take_of_take_eq (file₁ file₂ : List Nat) (m p n : Nat)
    (h : file₁.take m = file₂.take m) (hle : p + n ≤ m) :
    (file₁.drop p).take n = (file₂.drop p).take n := by
  have key : ∀ file : List Nat, (file.drop p).take n = ((file.take m).drop p).take n := by
    intro file
    rw [List.drop_take, List.take_take]
    congr 1
    omega
  rw [key file₁, key file₂, h]

/-- The scan of bytes that lie in a leading part on which two files agree, from the
start of a line in that part, is the same for the two files. -/
theorem parseBytes_file_congr (env : IndexingEnv) (file₁ file₂ : List Nat) (b : List Nat) :
    ∀ (o : Nat) (s : IndexingState), s.pos ≤ o →
      file₁.take (o + b.length) = file₂.take (o + b.length) →
      parseBytes env file₁ o b s = parseBytes env file₂ o b s := by
  induction b with
  | nil => intro o s _ _; rfl
  | cons c rest ih =>
    intro o s hs htake
    have htext : (file₁.drop s.pos).take (o - s.pos) = (file₂.drop s.pos).take (o - s.pos) :=
      drop_take_of_take_eq file₁ file₂ _ _ _ htake (by simp only [List.length_cons]; omega)
    have htake' : file₁.take (o + 1 + rest.length) = file₂.take (o + 1 + rest.length) := by
      have e : o + 1 + rest.length = o + (c :: rest).length := by
        simp only [List.length_cons]; omega
      rw [e]; exact htake
    by_cases hc : c = lineFeed
    · simp only [parseBytes, hc, if_true, htext]
      rw [ih (o + 1) _ (le_refl _) htake']
    · simp only [parseBytes, hc, if_false, htext]
      exact ih (o + 1) _ (by simp only; omega) htake'

/-- Bytes without a line feed end no line and leave the start of the line and the
longest line as they were. -/
theorem parseBytes_no_lineFeed (env : IndexingEnv) (file : List Nat) (b : List Nat) (hb : lineFeed ∉ b) :
    ∀ (o : Nat) (s : IndexingState),
      (parseBytes env file o b s).1 = [] ∧ (parseBytes env file o b s).2.pos = s.pos
        ∧ (parseBytes env file o b s).2.max_length = s.max_length := by
  induction b with
  | nil => intro o s; exact ⟨rfl, rfl, rfl⟩
  | cons c rest ih =>
    intro o s
    have hc : ¬ c = lineFeed := fun h => hb (by simp [h])
    have hrest : lineFeed ∉ rest := fun h => hb (List.mem_cons_of_mem _ h)
    simp only [parseBytes, hc, if_false]
    exact ih hrest _ _

/-- After bytes that end in a line feed, or after no bytes at all from the start of a
line, the scanner stands at the start of the next line with no additional spaces. -/
theorem parseBytes_terminated (env : IndexingEnv) (file : List Nat) (b : List Nat)
    (hb : b = [] ∨ b.getLast? = some lineFeed) (o : Nat) (s : IndexingState)
    (hs : s.pos = o) (ha : s.additional_spaces = 0) :
    (parseBytes env file o b s).2.pos = o + b.length
      ∧ (parseBytes env file o b s).2.additional_spaces = 0 := by
  rcases hb with hb | hb
  · subst hb
    exact ⟨hs, ha⟩
  · obtain ⟨a, rfl⟩ := List.getLast?_eq_some_iff.mp hb
    rw [parseBytes_append]
    simp only [parseBytes, if_true, List.length_append, List.length_singleton]
    exact ⟨by omega, trivial⟩

/-- The line ends of a scan that starts at or after the start of the current line are
strictly increasing, lie after the offset the scan starts at and not after the start of
the line the scan ends in, which is not after the last scanned byte. -/
theorem parseBytes_sorted (env : IndexingEnv) (file : List Nat) (b : List Nat) :
    ∀ (o : Nat) (s : IndexingState), s.pos ≤ o →
      (parseBytes env file o b s).1.Pairwise (· < ·)
        ∧ (∀ p ∈ (parseBytes env file o b s).1, o < p ∧ p ≤ (parseBytes env file o b s).2.pos)
        ∧ s.pos ≤ (parseBytes env file o b s).2.pos
        ∧ (parseBytes env file o b s).2.pos ≤ o + b.length := by
  induction b with
  | nil =>
    intro o s h
    simp only [parseBytes, List.length_nil, Nat.add_zero]
    refine ⟨List.Pairwise.nil, ?_, le_refl _, h⟩
    intro p hp
    cases hp
  | cons c rest ih =>
    intro o s h
    by_cases hc : c = lineFeed
    · simp only [parseBytes, hc, if_true, List.length_cons]
      obtain ⟨i1, i2, i3, i4⟩ := ih (o + 1)
        { s with end_ := o,
                 max_length := max s.max_length
                   (env.textLength s.encodingParams ((file.drop s.pos).take (o - s.pos)) + s.additional_spaces),
                 pos := o + 1, additional_spaces := 0 } (le_refl _)
      simp only at i3
      refine ⟨List.pairwise_cons.mpr ⟨fun q hq => (i2 q hq).1, i1⟩, ?_, by omega, by omega⟩
      intro p hp
      rcases List.mem_cons.mp hp with hp | hp
      · subst hp
        exact ⟨by omega, i3⟩
      · exact ⟨by have := (i2 p hp).1; omega, (i2 p hp).2⟩
    · simp only [parseBytes, hc, if_false, List.length_cons]
      obtain ⟨i1, i2, i3, i4⟩ := ih (o + 1)
        { s with additional_spaces :=
            s.additional_spaces
              + env.additionalSpaces
                  (env.textLength s.encodingParams ((file.drop s.pos).take (o - s.pos)) + s.additional_spaces) c }
        (by simp only; omega)
      simp only at i3
      exact ⟨i1, fun p hp => ⟨by have := (i2 p hp).1; omega, (i2 p hp).2⟩, i3, by omega⟩

/-- Terminated lines: scanning `n` lines, each without a line feed and followed by one,
from the start of a line finds `n` line ends and stops at the start of the next line. -/
theorem parseBytes_lines (env : IndexingEnv) (file : List Nat) (lines : List (List Nat))
    (hlines : ∀ l ∈ lines, lineFeed ∉ l) :
    ∀ (o : Nat) (s : IndexingState), s.pos = o →
      (parseBytes env file o (lines.map (· ++ [lineFeed])).flatten s).1.length = lines.length
        ∧ (parseBytes env file o (lines.map (· ++ [lineFeed])).flatten s).2.pos
            = o + (lines.map (· ++ [lineFeed])).flatten.length := by
  induction lines with
  | nil => intro o s h; exact ⟨rfl, h⟩
  | cons l rest ih =>
    intro o s h
    have hl : lineFeed ∉ l := hlines l (List.mem_cons_self _ _)
    have hrest : ∀ l' ∈ rest, lineFeed ∉ l' := fun l' h' => hlines l' (List.mem_cons_of_mem _ h')
    obtain ⟨n1, _, _⟩ := parseBytes_no_lineFeed env file l hl o s
    simp only [List.map_cons, List.flatten_cons, List.append_assoc]
    rw [parseBytes_append, n1, parseBytes_append]
    simp only [parseBytes, if_true, List.nil_append, List.singleton_append, List.length_cons,
      List.length_append, List.length_singleton, List.length_nil]
    obtain ⟨j1, j2⟩ := ih hrest (o + l.length + 1)
      { (parseBytes env file o l s).2 with
        end_ := o + l.length
        max_length := max (parseBytes env file o l s).2.max_length
          (env.textLength (parseBytes env file o l s).2.encodingParams
              ((file.drop (parseBytes env file o l s).2.pos).take
                (o + l.length - (parseBytes env file o l s).2.pos))
            + (parseBytes env file o l s).2.additional_spaces)
        pos := o + l.length + 1
        additional_spaces := 0 } rfl
    rw [j1, j2]
    exact ⟨rfl, by omega⟩

/-! ## Theorems: the scan of a sequence of blocks -/

/-- A scan of no block ends with the guess it starts with. -/
theorem scanGuess_nil (env : IndexingEnv) (forced guess : Option Nat) :
    scanGuess env forced guess [] = guess := by
  cases forced <;> cases guess <;> rfl

/-- The guess after a sequence of blocks is the guess after its first block carried
through the others. -/
theorem scanGuess_cons (env : IndexingEnv) (forced guess : Option Nat) (block : List Nat)
    (rest : List (List Nat)) :
    scanGuess env forced guess (block :: rest)
      = scanGuess env forced (scanGuess env forced guess [block]) rest := by
  cases forced <;> cases guess <;> cases block <;> rfl

/-- An empty block does not change the guess a scan ends with. -/
theorem scanGuess_empty_block (env : IndexingEnv) (forced guess : Option Nat)
    (rest : List (List Nat)) :
    scanGuess env forced guess ([] :: rest) = scanGuess env forced guess rest := by
  cases forced <;> cases guess <;> rfl

/-- Under a forced encoding, or once a guess is made, the guess does not change. -/
theorem scanGuess_settled (env : IndexingEnv) (forced guess : Option Nat)
    (blocks : List (List Nat)) (h : forced.isSome = true ∨ guess.isSome = true) :
    scanGuess env forced guess blocks = guess := by
  cases forced <;> cases guess <;> simp_all [scanGuess]

/-- After a block that holds a byte the encoding is settled: forced or guessed. -/
theorem scanGuess_nonempty_block (env : IndexingEnv) (forced guess : Option Nat)
    (block : List Nat) (hblock : block ≠ []) :
    forced.isSome = true ∨ (scanGuess env forced guess [block]).isSome = true := by
  cases forced with
  | some c => exact Or.inl rfl
  | none =>
    right
    cases guess with
    | some g => rfl
    | none =>
      cases block with
      | nil => exact absurd rfl hblock
      | cons c rest => rfl

/-- What `guessEncoding` does to a state whose encodings follow those of the index: the
place and the file size stay, the guess becomes the one after the block, and the
encodings still follow those of the index. -/
theorem guessEncoding_spec (env : IndexingEnv) (block : List Nat) (data : IndexingData)
    (state : IndexingState) (hinv : CodecInv data state) :
    (guessEncoding env block data state).pos = state.pos
    ∧ (guessEncoding env block data state).additional_spaces = state.additional_spaces
    ∧ (guessEncoding env block data state).file_size = state.file_size
    ∧ (guessEncoding env block data state).encodingGuess
        = scanGuess env data.encodingForced_ state.encodingGuess [block]
    ∧ (guessEncoding env block data state).fileTextCodec
        = data.encodingForced_.orElse
            (fun _ => (guessEncoding env block data state).encodingGuess)
    ∧ (guessEncoding env block data state).encodingParams
        = EncodingParameters.mk (guessEncoding env block data state).fileTextCodec
    ∧ (block = [] → guessEncoding env block data state = state) := by
  obtain ⟨_, h2, h3⟩ := hinv
  rcases state with ⟨params, pos, ml, asp, e, fs, guess, codec⟩
  rcases hf : data.encodingForced_ with _ | c <;> cases guess <;> cases block <;>
    simp_all [guessEncoding, scanGuess, firstNonEmptyBlock]

/-- Folding two byte ranges one after the other is folding their concatenation. -/
theorem FileDigest.addData_append (env : IndexingEnv) (d : FileDigest) (a b : List Nat) :
    (d.addData env a).addData env b = d.addData env (a ++ b) := by
  simp [FileDigest.addData, List.foldl_append]

/-- One step of a scan that nobody cancels. -/
theorem scanBlocks_step (env : IndexingEnv) (file : List Nat) (k beg : Nat) (block : List Nat)
    (rest : List (List Nat)) (data : IndexingData) (state : IndexingState) :
    scanBlocks env file neverInterrupted k beg (block :: rest) data state
      = scanBlocks env file neverInterrupted (k + 1) (beg + block.length) rest
          (data.addAll env block
            (parseDataBlock env file beg block (guessEncoding env block data state)).2.max_length
            (parseDataBlock env file beg block (guessEncoding env block data state)).1
            (parseDataBlock env file beg block (guessEncoding env block data state)).2.encodingGuess)
          (parseDataBlock env file beg block (guessEncoding env block data state)).2 := by
  simp [scanBlocks, neverInterrupted]

/-- What an uninterrupted scan of blocks leaves in the index and in the state, in terms
of the concatenation of the blocks and of the codec the scan counts the text in: `T` is
any state at the place the scan starts from with the encoding parameters of that
codec. -/
theorem scanBlocks_flatten (env : IndexingEnv) (file : List Nat) (blocks : List (List Nat)) :
    ∀ (k beg : Nat) (data : IndexingData) (state T : IndexingState),
      CodecInv data state →
      T.pos = state.pos → T.additional_spaces = state.additional_spaces →
      T.encodingParams
        = EncodingParameters.mk
            (scanCodec env data.encodingForced_ state.encodingGuess blocks) →
      (scanBlocks env file neverInterrupted k beg blocks data state).2.2 = false
      ∧ (scanBlocks env file neverInterrupted k beg blocks data state).1.linePosition_
          = data.linePosition_ ++ (parseBytes env file beg blocks.flatten T).1
      ∧ (scanBlocks env file neverInterrupted k beg blocks data state).1.maxLength_
          = max data.maxLength_ (parseDataBlock env file beg blocks.flatten T).2.max_length
      ∧ (scanBlocks env file neverInterrupted k beg blocks data state).1.hashBuilder_
          = data.hashBuilder_.addData env blocks.flatten
      ∧ (scanBlocks env file neverInterrupted k beg blocks data state).1.hash_.size
          = data.hash_.size + blocks.flatten.length
      ∧ (data.DigestInSync →
          (scanBlocks env file neverInterrupted k beg blocks data state).1.DigestInSync)
      ∧ SamePlace (scanBlocks env file neverInterrupted k beg blocks data state).2.1
          (parseBytes env file beg blocks.flatten T).2
      ∧ (scanBlocks env file neverInterrupted k beg blocks data state).2.1.file_size
          = state.file_size
      ∧ (scanBlocks env file neverInterrupted k beg blocks data state).2.1.encodingGuess
          = scanGuess env data.encodingForced_ state.encodingGuess blocks
      ∧ (scanBlocks env file neverInterrupted k beg blocks data state).1.encodingForced_
          = data.encodingForced_
      ∧ (scanBlocks env file neverInterrupted k beg blocks data state).1.encodingGuess_
          = (scanBlocks env file neverInterrupted k beg blocks data state).2.1.encodingGuess := by
  induction blocks with
  | nil =>
    intro k beg data state T hinv hpos hasp hpar
    obtain ⟨v1, v2, v3⟩ := hinv
    have hplace : SamePlace state T := by
      refine ⟨hpos.symm, hasp.symm, ?_⟩
      rw [hpar, v3, v2]
      simp only [scanCodec, scanGuess_nil]
    simp only [scanBlocks, List.flatten_nil, parseBytes, parseDataBlock, List.append_nil,
      Nat.zero_le, max_eq_left, FileDigest.addData, List.foldl_nil, List.length_nil,
      Nat.add_zero, scanGuess_nil]
    exact ⟨trivial, trivial, trivial, trivial, trivial, fun h => h, hplace, trivial, trivial,
      trivial, v1⟩
  | cons block rest ih =>
    intro k beg data state T hinv hpos hasp hpar
    rw [scanBlocks_step, List.flatten_cons]
    obtain ⟨g1, g2, g3, g4, g5, g6, g7⟩ := guessEncoding_spec env block data state hinv
    generalize guessEncoding env block data state = st1 at g1 g2 g3 g4 g5 g6 g7 ⊢
    obtain ⟨f1, f2, f3, f4⟩ := parseBytes_frame env file block beg { st1 with max_length := 0 }
    have hP : parseDataBlock env file beg block st1
        = parseBytes env file beg block { st1 with max_length := 0 } := rfl
    have hcodec : scanCodec env data.encodingForced_ state.encodingGuess (block :: rest)
        = scanCodec env data.encodingForced_ st1.encodingGuess rest := by
      unfold scanCodec
      rw [scanGuess_cons, g4]
    have hguess : scanGuess env data.encodingForced_ state.encodingGuess (block :: rest)
        = scanGuess env data.encodingForced_ st1.encodingGuess rest := by
      rw [scanGuess_cons, g4]
    have hinv' : CodecInv
        (data.addAll env block (parseDataBlock env file beg block st1).2.max_length
          (parseDataBlock env file beg block st1).1
          (parseDataBlock env file beg block st1).2.encodingGuess)
        (parseDataBlock env file beg block st1).2 := by
      refine ⟨rfl, ?_, ?_⟩
      · show (parseDataBlock env file beg block st1).2.fileTextCodec
            = data.encodingForced_.orElse
                (fun _ => (parseDataBlock env file beg block st1).2.encodingGuess)
        rw [hP, f3, f2]
        exact g5
      · rw [hP, f4, f3]
        exact g6
    by_cases hb : block = []
    · subst hb
      have hst : st1 = state := g7 rfl
      have hpar' : T.encodingParams
          = EncodingParameters.mk
              (scanCodec env
                (data.addAll env [] (parseDataBlock env file beg [] st1).2.max_length
                  (parseDataBlock env file beg [] st1).1
                  (parseDataBlock env file beg [] st1).2.encodingGuess).encodingForced_
                (parseDataBlock env file beg [] st1).2.encodingGuess rest) := by
        rw [hpar, hcodec]
        rfl
      obtain ⟨i1, i2, i3, i4, i5, i6, i7, i8, i9, i10, i11⟩ :=
        ih (k + 1) (beg + ([] : List Nat).length) _ _ T hinv'
          (by rw [hpos, ← hst]; rfl) (by rw [hasp, ← hst]; rfl) hpar'
      simp only [List.length_nil, Nat.add_zero, List.nil_append]
        at i1 i2 i3 i4 i5 i6 i7 i8 i9 i10 i11 ⊢
      refine ⟨i1, ?_, ?_, ?_, ?_, ?_, i7, ?_, ?_, i10, i11⟩
      · rw [i2]
        simp [IndexingData.addAll, parseDataBlock, parseBytes]
      · rw [i3]
        simp [IndexingData.addAll, parseDataBlock, parseBytes]
      · rw [i4]
        simp [IndexingData.addAll, FileDigest.addData]
      · rw [i5]
        simp [IndexingData.addAll]
      · intro _
        exact i6 rfl
      · rw [i8, ← hst]
        rfl
      · rw [i9, hguess]
        rfl
    · have hsettled := scanGuess_nonempty_block env data.encodingForced_ state.encodingGuess
        block hb
      rw [← g4] at hsettled
      have hrest : scanGuess env data.encodingForced_ st1.encodingGuess rest
          = st1.encodingGuess :=
        scanGuess_settled env _ _ rest hsettled
      have hTpar : T.encodingParams = st1.encodingParams := by
        rw [hpar, hcodec, g6, g5]
        unfold scanCodec
        rw [hrest]
      have hplace0 : SamePlace { st1 with max_length := 0 } T :=
        ⟨by rw [hpos]; exact g1, by rw [hasp]; exact g2, hTpar.symm⟩
      obtain ⟨p1, p2⟩ := parseBytes_congr env file block beg _ _ hplace0
      have hpar' : (parseBytes env file beg block T).2.encodingParams
          = EncodingParameters.mk
              (scanCodec env
                (data.addAll env block (parseDataBlock env file beg block st1).2.max_length
                  (parseDataBlock env file beg block st1).1
                  (parseDataBlock env file beg block st1).2.encodingGuess).encodingForced_
                (parseDataBlock env file beg block st1).2.encodingGuess rest) := by
        rw [← p2.2.2, f4]
        show st1.encodingParams
          = EncodingParameters.mk
              (scanCodec env data.encodingForced_
                (parseDataBlock env file beg block st1).2.encodingGuess rest)
        rw [hP, f2, g6, g5]
        unfold scanCodec
        rw [hrest]
      obtain ⟨i1, i2, i3, i4, i5, i6, i7, i8, i9, i10, i11⟩ :=
        ih (k + 1) (beg + block.length) _ _ (parseBytes env file beg block T).2 hinv'
          p2.1.symm p2.2.1.symm hpar'
      refine ⟨i1, ?_, ?_, ?_, ?_, ?_, ?_, ?_, ?_, i10, i11⟩
      · rw [i2, parseBytes_append]
        simp only [IndexingData.addAll, List.append_assoc]
        rw [hP, p1]
      · rw [i3]
        simp only [IndexingData.addAll]
        have e1 : (parseDataBlock env file beg (block ++ rest.flatten) T).2.max_length
            = max (parseBytes env file beg block { T with max_length := 0 }).2.max_length
                (parseDataBlock env file (beg + block.length) rest.flatten
                  (parseBytes env file beg block T).2).2.max_length := by
          show (parseBytes env file beg (block ++ rest.flatten)
            { T with max_length := 0 }).2.max_length = _
          rw [parseBytes_append]
          exact parseBytes_max env file rest.flatten _ _ _
            (parseBytes_congr env file block beg { T with max_length := 0 } T ⟨rfl, rfl, rfl⟩).2
        have e2 : (parseBytes env file beg block { T with max_length := 0 }).2.max_length
            = (parseDataBlock env file beg block st1).2.max_length := by
          rw [parseBytes_max env file block beg { T with max_length := 0 } T ⟨rfl, rfl, rfl⟩, hP,
            parseBytes_max env file block beg { st1 with max_length := 0 } T hplace0]
        rw [e1, e2, max_assoc]
      · rw [i4]
        simp only [IndexingData.addAll]
        exact FileDigest.addData_append env _ _ _
      · rw [i5]
        simp only [IndexingData.addAll, List.length_append]
        omega
      · intro _
        exact i6 rfl
      · rw [parseBytes_append]
        exact i7
      · rw [i8, hP, f1]
        exact g3
      · rw [i9, hguess, hP, f2]
        rfl

/-- What a `doIndex` that nobody cancels and no read of which fails leaves in the index,
in terms of the concatenation of the blocks and of the codec the scan counts the text
in: the line ends of the scanned bytes, then the end of the file when bytes follow the
last line end. -/
theorem doIndexBlocks_flatten (env : IndexingEnv) (file : List Nat) (blocks : List (List Nat))
    (data : IndexingData) (initialPosition : Nat) :
    (doIndexBlocks env file neverInterrupted blocks false data initialPosition).2
        = ScanEnd.finished
    ∧ (doIndexBlocks env file neverInterrupted blocks false data
          initialPosition).1.linePosition_
        = data.linePosition_
          ++ (parseBytes env file initialPosition blocks.flatten
                (scanStart initialPosition
                  (scanCodec env data.encodingForced_ data.encodingGuess_ blocks))).1
          ++ (if file.length
                > (parseBytes env file initialPosition blocks.flatten
                    (scanStart initialPosition
                      (scanCodec env data.encodingForced_ data.encodingGuess_ blocks))).2.pos
              then [file.length] else [])
    ∧ (doIndexBlocks env file neverInterrupted blocks false data
          initialPosition).1.maxLength_
        = max (max data.maxLength_
            (parseBytes env file initialPosition blocks.flatten
              (scanStart initialPosition
                (scanCodec env data.encodingForced_ data.encodingGuess_ blocks))).2.max_length)
            (if file.length
                > (parseBytes env file initialPosition blocks.flatten
                    (scanStart initialPosition
                      (scanCodec env data.encodingForced_ data.encodingGuess_ blocks))).2.pos
              then env.textLength
                  (EncodingParameters.mk
                    (scanCodec env data.encodingForced_ data.encodingGuess_ blocks))
                  ((file.drop ((parseBytes env file initialPosition blocks.flatten (scanStart initialPosition (scanCodec env data.encodingForced_ data.encodingGuess_ blocks))).2.pos)).take
                    (file.length - (parseBytes env file initialPosition blocks.flatten (scanStart initialPosition (scanCodec env data.encodingForced_ data.encodingGuess_ blocks))).2.pos))
                + (parseBytes env file initialPosition blocks.flatten
                    (scanStart initialPosition
                      (scanCodec env data.encodingForced_ data.encodingGuess_
                        blocks))).2.additional_spaces
              else 0)
    ∧ (doIndexBlocks env file neverInterrupted blocks false data
          initialPosition).1.hashBuilder_
        = data.hashBuilder_.addData env blocks.flatten
    ∧ (doIndexBlocks env file neverInterrupted blocks false data
          initialPosition).1.hash_.size
        = data.hash_.size + blocks.flatten.length
    ∧ (data.DigestInSync →
        (doIndexBlocks env file neverInterrupted blocks false data
          initialPosition).1.DigestInSync)
    ∧ (doIndexBlocks env file neverInterrupted blocks false data
          initialPosition).1.encodingForced_
        = data.encodingForced_
    ∧ (doIndexBlocks env file neverInterrupted blocks false data
          initialPosition).1.encodingGuess_
        = scanGuess env data.encodingForced_ data.encodingGuess_ blocks := by
  have hinv : CodecInv data
      { encodingParams :=
          EncodingParameters.mk (data.encodingForced_.orElse (fun _ => data.encodingGuess_))
        pos := initialPosition
        file_size := file.length
        encodingGuess := data.encodingGuess_
        fileTextCodec := data.encodingForced_.orElse (fun _ => data.encodingGuess_) } :=
    ⟨rfl, rfl, rfl⟩
  obtain ⟨s1, s2, s3, s4, s5, s6, s7, s8, s9, s10, s11⟩ :=
    scanBlocks_flatten env file blocks 0 initialPosition data _
      (scanStart initialPosition
        (scanCodec env data.encodingForced_ data.encodingGuess_ blocks))
      hinv rfl rfl rfl
  have hmax : (parseDataBlock env file initialPosition blocks.flatten
        (scanStart initialPosition
          (scanCodec env data.encodingForced_ data.encodingGuess_ blocks))).2.max_length
      = (parseBytes env file initialPosition blocks.flatten
          (scanStart initialPosition
            (scanCodec env data.encodingForced_ data.encodingGuess_ blocks))).2.max_length := rfl
  rw [hmax] at s3
  have hpar := (parseBytes_frame env file blocks.flatten initialPosition
    (scanStart initialPosition
      (scanCodec env data.encodingForced_ data.encodingGuess_ blocks))).2.2.2
  have hparams := s7.2.2.trans hpar
  simp only [scanStart] at hparams
  unfold doIndexBlocks
  simp only [s1, Bool.false_eq_true, if_false, s8, s7.1, s7.2.1, hparams]
  by_cases ht : file.length
      > (parseBytes env file initialPosition blocks.flatten
          (scanStart initialPosition
            (scanCodec env data.encodingForced_ data.encodingGuess_ blocks))).2.pos
  · simp only [ht, if_true]
    refine ⟨trivial, ?_, ?_, ?_, ?_, ?_, ?_, ?_⟩
    · simp only [IndexingData.addAll, s2]
    · simp only [IndexingData.addAll, s3]
    · simp only [IndexingData.addAll, s4, FileDigest.addData, List.foldl_nil]
    · simp only [IndexingData.addAll, s5, List.length_nil, Nat.add_zero]
    · intro _; rfl
    · simp only [IndexingData.addAll, s10]
    · simp only [IndexingData.addAll, s9]
  · simp only [ht, if_false]
    refine ⟨trivial, ?_, ?_, s4, s5, s6, s10, ?_⟩
    · simp only [s2, List.append_nil]
    · simp only [s3]; omega
    · rw [s11, s9]

/-- With a positive block size and enough reads, the blocks read are a partition of
the bytes. -/
theorem readBlocks_flatten (blockSize : Nat) (hpos : 0 < blockSize) :
    ∀ (fuel : Nat) (data : List Nat), data.length ≤ fuel →
      (readBlocks blockSize fuel data).flatten = data := by
  intro fuel
  induction fuel with
  | zero =>
    intro data h
    have : data = [] := List.length_eq_zero.mp (Nat.le_zero.mp h)
    subst this
    rfl
  | succ n ih =>
    intro data h
    cases data with
    | nil => rfl
    | cons c rest =>
      have hlen : (List.drop blockSize (c :: rest)).length ≤ n := by
        rw [List.length_drop]
        simp only [List.length_cons] at h ⊢
        omega
      simp only [readBlocks, List.isEmpty_cons, Bool.false_eq_true, if_false,
        List.flatten_cons]
      rw [ih _ hlen, List.take_append_drop]

/-- With a positive block size, the first block that holds a byte is the first block
read: the leading `blockSize` bytes, when there is any byte. -/
theorem firstNonEmptyBlock_readBlocks (blockSize : Nat) (hpos : 0 < blockSize)
    (data : List Nat) :
    firstNonEmptyBlock (readBlocks blockSize data.length data)
      = if data = [] then none else some (data.take blockSize) := by
  cases data with
  | nil => rfl
  | cons c rest =>
    obtain ⟨n, rfl⟩ : ∃ n, blockSize = n + 1 := ⟨blockSize - 1, by omega⟩
    simp [readBlocks, firstNonEmptyBlock]

/-- The record of the header and tail digests changes the header and the tail of the
recorded hash only. -/
theorem recordHeaderAndTail_fields (env : IndexingEnv) (file : List Nat) (data : IndexingData) :
    (recordHeaderAndTail env file data).linePosition_ = data.linePosition_
    ∧ (recordHeaderAndTail env file data).maxLength_ = data.maxLength_
    ∧ (recordHeaderAndTail env file data).hashBuilder_ = data.hashBuilder_
    ∧ (recordHeaderAndTail env file data).hash_.size = data.hash_.size
    ∧ (recordHeaderAndTail env file data).hash_.fullDigest = data.hash_.fullDigest
    ∧ (recordHeaderAndTail env file data).encodingForced_ = data.encodingForced_
    ∧ (recordHeaderAndTail env file data).encodingGuess_ = data.encodingGuess_
    ∧ (recordHeaderAndTail env file data).hash_.headerSize = min env.headerSize data.hash_.size
    ∧ (recordHeaderAndTail env file data).hash_.headerDigest
        = digestOf env (file.take (min env.headerSize data.hash_.size))
    ∧ (recordHeaderAndTail env file data).hash_.tailSize = min env.tailSize data.hash_.size
    ∧ (recordHeaderAndTail env file data).hash_.tailOffset
        = data.hash_.size - min env.tailSize data.hash_.size
    ∧ (recordHeaderAndTail env file data).hash_.tailDigest
        = digestOf env
            ((file.drop (data.hash_.size - min env.tailSize data.hash_.size)).take
              (min env.tailSize data.hash_.size)) :=
  ⟨rfl, rfl, rfl, rfl, rfl, rfl, rfl, rfl, rfl, rfl, rfl, rfl⟩

/-- The guess that a scan in blocks of a positive size ends with. -/
theorem scanGuess_readBlocks (env : IndexingEnv) (blockSize : Nat) (hpos : 0 < blockSize)
    (forced guess : Option Nat) (rest : List Nat) :
    scanGuess env forced guess (readBlocks blockSize rest.length rest)
      = if forced.isSome then guess
        else guess.orElse
          (fun _ => if rest = [] then none else some (env.detectEncoding (rest.take blockSize))) := by
  unfold scanGuess
  rw [firstNonEmptyBlock_readBlocks blockSize hpos]
  by_cases h : rest = [] <;> simp [h]

/-- The codec that a scan in blocks of a positive size counts the text in. -/
theorem scanCodec_readBlocks (env : IndexingEnv) (blockSize : Nat) (hpos : 0 < blockSize)
    (forced guess : Option Nat) (rest : List Nat) :
    scanCodec env forced guess (readBlocks blockSize rest.length rest)
      = readCodec env blockSize forced guess rest := by
  unfold scanCodec
  rw [scanGuess_readBlocks env blockSize hpos]
  cases forced <;> cases guess <;> simp [readCodec]

/-- What an uninterrupted `doIndex` with a positive block size, no read of which fails,
leaves in the index, in terms of the bytes of the file from `initialPosition` on and of
the codec the scan counts the text in. -/
theorem doIndex_fields (env : IndexingEnv) (blockSize : Nat) (hpos : 0 < blockSize)
    (file : List Nat) (data : IndexingData) (initialPosition : Nat) :
    (doIndex env neverInterrupted none blockSize file data initialPosition).2 = ScanEnd.finished
    ∧ (doIndex env neverInterrupted none blockSize file data initialPosition).1.linePosition_
        = data.linePosition_
          ++ (parseBytes env file initialPosition (file.drop initialPosition)
                (scanStart initialPosition
                  (readCodec env blockSize data.encodingForced_ data.encodingGuess_
                    (file.drop initialPosition)))).1
          ++ (if file.length
                > (parseBytes env file initialPosition (file.drop initialPosition)
                    (scanStart initialPosition
                      (readCodec env blockSize data.encodingForced_ data.encodingGuess_
                        (file.drop initialPosition)))).2.pos
              then [file.length] else [])
    ∧ (doIndex env neverInterrupted none blockSize file data initialPosition).1.maxLength_
        = max (max data.maxLength_
            (parseBytes env file initialPosition (file.drop initialPosition)
              (scanStart initialPosition
                (readCodec env blockSize data.encodingForced_ data.encodingGuess_
                  (file.drop initialPosition)))).2.max_length)
            (if file.length
                > (parseBytes env file initialPosition (file.drop initialPosition)
                    (scanStart initialPosition
                      (readCodec env blockSize data.encodingForced_ data.encodingGuess_
                        (file.drop initialPosition)))).2.pos
              then env.textLength
                  (EncodingParameters.mk
                    (readCodec env blockSize data.encodingForced_ data.encodingGuess_
                      (file.drop initialPosition)))
                  ((file.drop ((parseBytes env file initialPosition (file.drop initialPosition) (scanStart initialPosition (readCodec env blockSize data.encodingForced_ data.encodingGuess_ (file.drop initialPosition)))).2.pos)).take
                    (file.length - (parseBytes env file initialPosition (file.drop initialPosition) (scanStart initialPosition (readCodec env blockSize data.encodingForced_ data.encodingGuess_ (file.drop initialPosition)))).2.pos))
                + (parseBytes env file initialPosition (file.drop initialPosition)
                    (scanStart initialPosition
                      (readCodec env blockSize data.encodingForced_ data.encodingGuess_
                        (file.drop initialPosition)))).2.additional_spaces
              else 0)
    ∧ (doIndex env neverInterrupted none blockSize file data initialPosition).1.hashBuilder_
        = data.hashBuilder_.addData env (file.drop initialPosition)
    ∧ (doIndex env neverInterrupted none blockSize file data initialPosition).1.hash_.size
        = data.hash_.size + (file.drop initialPosition).length
    ∧ (data.DigestInSync →
        (doIndex env neverInterrupted none blockSize file data initialPosition).1.DigestInSync)
    ∧ (doIndex env neverInterrupted none blockSize file data
          initialPosition).1.encodingForced_
        = data.encodingForced_
    ∧ (doIndex env neverInterrupted none blockSize file data initialPosition).1.encodingGuess_
        = (if data.encodingForced_.isSome then data.encodingGuess_
          else data.encodingGuess_.orElse
            (fun _ => if file.drop initialPosition = [] then none
              else some (env.detectEncoding ((file.drop initialPosition).take blockSize)))) := by
  obtain ⟨h1, h2, h3, h4, h5, h6, h7, h8⟩ := doIndexBlocks_flatten env file
    (readBlocks blockSize (file.drop initialPosition).length (file.drop initialPosition))
    data initialPosition
  rw [readBlocks_flatten blockSize hpos _ _ (le_refl _),
    scanCodec_readBlocks env blockSize hpos] at h2 h3
  rw [readBlocks_flatten blockSize hpos _ _ (le_refl _)] at h4 h5
  rw [scanGuess_readBlocks env blockSize hpos] at h8
  obtain ⟨r1, r2, r3, r4, r5, r6, r7, _⟩ := recordHeaderAndTail_fields env file
    (doIndexBlocks env file neverInterrupted
      (readBlocks blockSize (file.drop initialPosition).length (file.drop initialPosition))
      false data initialPosition).1
  have hrun : doIndex env neverInterrupted none blockSize file data initialPosition
      = (recordHeaderAndTail env file
          (doIndexBlocks env file neverInterrupted
            (readBlocks blockSize (file.drop initialPosition).length
              (file.drop initialPosition))
            false data initialPosition).1,
         (doIndexBlocks env file neverInterrupted
            (readBlocks blockSize (file.drop initialPosition).length
              (file.drop initialPosition))
            false data initialPosition).2) := rfl
  rw [hrun]
  refine ⟨h1, ?_, ?_, ?_, ?_, ?_, ?_, ?_⟩
  · rw [r1, h2]
  · rw [r2, h3]
  · rw [r3, h4]
  · rw [r4, h5]
  · intro hsync
    have := h6 hsync
    unfold IndexingData.DigestInSync at this ⊢
    rw [r5, r3]
    exact this
  · rw [r6, h7]
  · rw [r7, h8]

/-- The header and the tail recorded by a `doIndex`, in terms of the indexed size it
leaves. -/
theorem doIndex_hash (env : IndexingEnv) (interruptRequest : Nat → Bool)
    (readFailure : Option Nat) (blockSize : Nat) (file : List Nat) (data : IndexingData)
    (initialPosition : Nat) :
    (doIndex env interruptRequest readFailure blockSize file data
        initialPosition).1.hash_.headerSize
      = min env.headerSize
          (doIndex env interruptRequest readFailure blockSize file data
            initialPosition).1.hash_.size
    ∧ (doIndex env interruptRequest readFailure blockSize file data
        initialPosition).1.hash_.headerDigest
      = digestOf env (file.take
          (min env.headerSize
            (doIndex env interruptRequest readFailure blockSize file data
              initialPosition).1.hash_.size))
    ∧ (doIndex env interruptRequest readFailure blockSize file data
        initialPosition).1.hash_.tailSize
      = min env.tailSize
          (doIndex env interruptRequest readFailure blockSize file data
            initialPosition).1.hash_.size
    ∧ (doIndex env interruptRequest readFailure blockSize file data
        initialPosition).1.hash_.tailOffset
      = (doIndex env interruptRequest readFailure blockSize file data
            initialPosition).1.hash_.size
        - min env.tailSize
          (doIndex env interruptRequest readFailure blockSize file data
            initialPosition).1.hash_.size
    ∧ (doIndex env interruptRequest readFailure blockSize file data
        initialPosition).1.hash_.tailDigest
      = digestOf env
          ((file.drop
            ((doIndex env interruptRequest readFailure blockSize file data
                initialPosition).1.hash_.size
              - min env.tailSize
                (doIndex env interruptRequest readFailure blockSize file data
                  initialPosition).1.hash_.size)).take
            (min env.tailSize
              (doIndex env interruptRequest readFailure blockSize file data
                initialPosition).1.hash_.size)) :=
  ⟨rfl, rfl, rfl, rfl, rfl⟩

/-- The fields of the index after a full index that nobody cancels and no read of which
fails. -/
theorem fullIndex_fields (env : IndexingEnv) (blockSize : Nat) (hpos : 0 < blockSize)
    (file : List Nat) (forcedEncoding : Option Nat) (data : IndexingData) :
    (fullIndex env blockSize file forcedEncoding data).linePosition_
        = (parseBytes env file 0 file
              (scanStart 0 (fullIndexCodec env blockSize file forcedEncoding))).1
          ++ (if file.length
                > (parseBytes env file 0 file
                    (scanStart 0 (fullIndexCodec env blockSize file forcedEncoding))).2.pos
              then [file.length] else [])
    ∧ (fullIndex env blockSize file forcedEncoding data).maxLength_
        = max (parseBytes env file 0 file
              (scanStart 0 (fullIndexCodec env blockSize file forcedEncoding))).2.max_length
            (if file.length
                > (parseBytes env file 0 file
                    (scanStart 0 (fullIndexCodec env blockSize file forcedEncoding))).2.pos
              then env.textLength
                  (EncodingParameters.mk (fullIndexCodec env blockSize file forcedEncoding))
                  ((file.drop ((parseBytes env file 0 file (scanStart 0 (fullIndexCodec env blockSize file forcedEncoding))).2.pos)).take
                    (file.length - (parseBytes env file 0 file (scanStart 0 (fullIndexCodec env blockSize file forcedEncoding))).2.pos))
                + (parseBytes env file 0 file
                    (scanStart 0
                      (fullIndexCodec env blockSize file forcedEncoding))).2.additional_spaces
              else 0)
    ∧ (fullIndex env blockSize file forcedEncoding data).hashBuilder_
        = (FileDigest.mk 0).addData env file
    ∧ (fullIndex env blockSize file forcedEncoding data).hash_.size = file.length
    ∧ (fullIndex env blockSize file forcedEncoding data).DigestInSync
    ∧ (fullIndex env blockSize file forcedEncoding data).encodingForced_ = forcedEncoding
    ∧ (fullIndex env blockSize file forcedEncoding data).encodingGuess_
        = (if forcedEncoding.isSome then none
          else if file = [] then none
          else some (env.detectEncoding (file.take blockSize))) := by
  obtain ⟨_, h2, h3, h4, h5, h6, h7, h8⟩ := doIndex_fields env blockSize hpos file
    ((data.clear).forceEncoding forcedEncoding) 0
  simp only [List.drop_zero] at h2 h3 h4 h5 h8
  have hf : ((data.clear).forceEncoding forcedEncoding).encodingForced_ = forcedEncoding := rfl
  have hg : ((data.clear).forceEncoding forcedEncoding).encodingGuess_ = none := rfl
  have hl : ((data.clear).forceEncoding forcedEncoding).linePosition_ = [] := rfl
  have hm : ((data.clear).forceEncoding forcedEncoding).maxLength_ = 0 := rfl
  have hb : ((data.clear).forceEncoding forcedEncoding).hashBuilder_ = FileDigest.mk 0 := rfl
  have hs : ((data.clear).forceEncoding forcedEncoding).hash_.size = 0 := rfl
  rw [hf, hg] at h2 h3 h8
  rw [hl] at h2
  rw [hm] at h3
  rw [hb] at h4
  rw [hs] at h5
  rw [hf] at h7
  have hrun : fullIndex env blockSize file forcedEncoding data
      = (doIndex env neverInterrupted none blockSize file
          ((data.clear).forceEncoding forcedEncoding) 0).1 := rfl
  rw [hrun]
  refine ⟨?_, ?_, h4, ?_, h6 rfl, h7, ?_⟩
  · rw [h2]; simp [fullIndexCodec]
  · rw [h3]; simp [fullIndexCodec]
  · rw [h5]; simp
  · rw [h8]
    cases forcedEncoding <;> simp

/-- Guessing the encoding moves neither the start of the line nor the file size of the
state. -/
theorem guessEncoding_place (env : IndexingEnv) (block : List Nat) (data : IndexingData)
    (state : IndexingState) :
    (guessEncoding env block data state).pos = state.pos
      ∧ (guessEncoding env block data state).file_size = state.file_size := by
  unfold guessEncoding
  cases data.encodingForced_ with
  | some codec => exact ⟨rfl, rfl⟩
  | none =>
    by_cases h : (state.encodingGuess.isNone && !block.isEmpty) = true
    · rw [if_pos h]; exact ⟨rfl, rfl⟩
    · rw [if_neg h]; exact ⟨rfl, rfl⟩

/-- Whatever the interrupt flag does, a scan of blocks that starts at the indexed size,
at or after the start of the current line, with every stored position at or before that
start, keeps the stored positions strictly increasing and only appends to them. -/
theorem scanBlocks_inv (env : IndexingEnv) (file : List Nat) (interruptRequest : Nat → Bool)
    (blocks : List (List Nat)) :
    ∀ (k beg : Nat) (data : IndexingData) (state : IndexingState),
      data.linePosition_.Pairwise (· < ·) → (∀ p ∈ data.linePosition_, p ≤ state.pos) →
      state.pos ≤ beg → data.hash_.size = beg →
      (scanBlocks env file interruptRequest k beg blocks data state).1.linePosition_.Pairwise (· < ·)
      ∧ (∀ p ∈ (scanBlocks env file interruptRequest k beg blocks data state).1.linePosition_,
          p ≤ (scanBlocks env file interruptRequest k beg blocks data state).2.1.pos)
      ∧ (scanBlocks env file interruptRequest k beg blocks data state).2.1.pos
          ≤ (scanBlocks env file interruptRequest k beg blocks data state).1.hash_.size
      ∧ data.linePosition_
          <+: (scanBlocks env file interruptRequest k beg blocks data state).1.linePosition_
      ∧ data.maxLength_
          ≤ (scanBlocks env file interruptRequest k beg blocks data state).1.maxLength_
      ∧ (scanBlocks env file interruptRequest k beg blocks data state).2.1.file_size
          = state.file_size
      ∧ ((scanBlocks env file interruptRequest k beg blocks data state).2.2 = false →
          (scanBlocks env file interruptRequest k beg blocks data state).1.hash_.size
            = beg + blocks.flatten.length)
      ∧ state.pos ≤ (scanBlocks env file interruptRequest k beg blocks data state).2.1.pos := by
  induction blocks with
  | nil =>
    intro k beg data state h1 h2 h3 h4
    simp only [scanBlocks, List.flatten_nil, List.length_nil, Nat.add_zero]
    exact ⟨h1, h2, by omega, List.prefix_refl _, le_refl _, trivial, fun _ => h4, le_refl _⟩
  | cons block rest ih =>
    intro k beg data state h1 h2 h3 h4
    obtain ⟨hgpos, hsize⟩ := guessEncoding_place env block data state
    have hle : ({ guessEncoding env block data state with max_length := 0 } :
        IndexingState).pos ≤ beg := by
      simp only
      omega
    obtain ⟨q1, q2, q3, q4⟩ := parseBytes_sorted env file block beg
      { guessEncoding env block data state with max_length := 0 } hle
    have hfr := (parseBytes_frame env file block beg
      { guessEncoding env block data state with max_length := 0 }).1
    have q3' : state.pos
        ≤ (parseDataBlock env file beg block (guessEncoding env block data state)).2.pos :=
      le_trans (le_of_eq hgpos.symm) q3
    have d1 : (data.addAll env block
          (parseDataBlock env file beg block (guessEncoding env block data state)).2.max_length
          (parseDataBlock env file beg block (guessEncoding env block data state)).1
          (parseDataBlock env file beg block
            (guessEncoding env block data state)).2.encodingGuess).linePosition_.Pairwise
        (· < ·) := by
      simp only [IndexingData.addAll]
      refine List.pairwise_append.mpr ⟨h1, q1, ?_⟩
      intro a ha b hb
      have := h2 a ha
      have := (q2 b hb).1
      omega
    have d2 : ∀ p ∈ (data.addAll env block
          (parseDataBlock env file beg block (guessEncoding env block data state)).2.max_length
          (parseDataBlock env file beg block (guessEncoding env block data state)).1
          (parseDataBlock env file beg block
            (guessEncoding env block data state)).2.encodingGuess).linePosition_,
        p ≤ (parseDataBlock env file beg block (guessEncoding env block data state)).2.pos := by
      intro p hp
      simp only [IndexingData.addAll] at hp
      rcases List.mem_append.mp hp with hp | hp
      · have := h2 p hp
        exact le_trans this q3'
      · exact (q2 p hp).2
    have d3 : (data.addAll env block
          (parseDataBlock env file beg block (guessEncoding env block data state)).2.max_length
          (parseDataBlock env file beg block (guessEncoding env block data state)).1
          (parseDataBlock env file beg block
            (guessEncoding env block data state)).2.encodingGuess).hash_.size
        = beg + block.length := by
      simp only [IndexingData.addAll, h4]
    have d4 : (parseDataBlock env file beg block (guessEncoding env block data state)).2.file_size
        = state.file_size := hfr.trans hsize
    by_cases hk : interruptRequest k = true
    · have hstep : scanBlocks env file interruptRequest k beg (block :: rest) data state
          = (data.addAll env block
              (parseDataBlock env file beg block (guessEncoding env block data state)).2.max_length
              (parseDataBlock env file beg block (guessEncoding env block data state)).1
              (parseDataBlock env file beg block (guessEncoding env block data state)).2.encodingGuess,
            (parseDataBlock env file beg block (guessEncoding env block data state)).2, true) := by
        simp [scanBlocks, hk]
      rw [hstep]
      refine ⟨d1, d2, ?_, ?_, ?_, d4, ?_, q3'⟩
      · rw [d3]; exact q4
      · simp only [IndexingData.addAll]; exact List.prefix_append _ _
      · simp only [IndexingData.addAll]; exact le_max_left _ _
      · intro hfalse; cases hfalse
    · have hstep : scanBlocks env file interruptRequest k beg (block :: rest) data state
          = scanBlocks env file interruptRequest (k + 1) (beg + block.length) rest
              (data.addAll env block
                (parseDataBlock env file beg block (guessEncoding env block data state)).2.max_length
                (parseDataBlock env file beg block (guessEncoding env block data state)).1
                (parseDataBlock env file beg block
                  (guessEncoding env block data state)).2.encodingGuess)
              (parseDataBlock env file beg block (guessEncoding env block data state)).2 := by
        simp [scanBlocks, hk]
      obtain ⟨i1, i2, i3, i4, i5, i6, i7, i8⟩ :=
        ih (k + 1) (beg + block.length) _ _ d1 d2 q4 d3
      rw [hstep]
      refine ⟨i1, i2, i3, ?_, ?_, i6.trans d4, ?_, le_trans q3' i8⟩
      · refine List.IsPrefix.trans ?_ i4
        simp only [IndexingData.addAll]; exact List.prefix_append _ _
      · refine le_trans ?_ i5
        simp only [IndexingData.addAll]; exact le_max_left _ _
      · intro hfalse
        rw [i7 hfalse, List.flatten_cons, List.length_append]
        omega

/-- Whatever the interrupt flag does and whichever read fails, `doIndex` started at the
indexed size of a well-formed index leaves a well-formed index, only appends to the line
positions and does not lower the maximum length. -/
theorem doIndex_wellFormed (env : IndexingEnv) (interruptRequest : Nat → Bool)
    (readFailure : Option Nat) (blockSize : Nat) (hpos : 0 < blockSize) (file : List Nat)
    (data : IndexingData) (hwf : data.WellFormed) :
    (doIndex env interruptRequest readFailure blockSize file data
        data.getIndexedSize).1.WellFormed
    ∧ data.linePosition_
        <+: (doIndex env interruptRequest readFailure blockSize file data
              data.getIndexedSize).1.linePosition_
    ∧ data.maxLength_
        ≤ (doIndex env interruptRequest readFailure blockSize file data
              data.getIndexedSize).1.maxLength_ := by
  obtain ⟨i1, i2, i3, i4, i5, i6, i7, i8⟩ := scanBlocks_inv env file interruptRequest
    (blocksRead blockSize readFailure (file.drop data.getIndexedSize))
    0 data.getIndexedSize data
    { encodingParams :=
        EncodingParameters.mk (data.encodingForced_.orElse (fun _ => data.encodingGuess_))
      pos := data.getIndexedSize
      file_size := file.length
      encodingGuess := data.encodingGuess_
      fileTextCodec := data.encodingForced_.orElse (fun _ => data.encodingGuess_) }
    hwf.1 hwf.2 (le_refl _) rfl
  simp only at i6 i8
  have hlen := List.length_drop data.getIndexedSize file
  have key : (doIndexBlocks env file interruptRequest
        (blocksRead blockSize readFailure (file.drop data.getIndexedSize)) readFailure.isSome
        data data.getIndexedSize).1.WellFormed
      ∧ data.linePosition_
          <+: (doIndexBlocks env file interruptRequest
            (blocksRead blockSize readFailure (file.drop data.getIndexedSize))
            readFailure.isSome data data.getIndexedSize).1.linePosition_
      ∧ data.maxLength_
          ≤ (doIndexBlocks env file interruptRequest
            (blocksRead blockSize readFailure (file.drop data.getIndexedSize))
            readFailure.isSome data data.getIndexedSize).1.maxLength_ := by
    unfold doIndexBlocks
    simp only [i6]
    split
    · exact ⟨⟨i1, fun p hp => le_trans (i2 p hp) i3⟩, i4, i5⟩
    · rename_i hnc
      split
      · exact ⟨⟨i1, fun p hp => le_trans (i2 p hp) i3⟩, i4, i5⟩
      · rename_i hnf
        have hrf : readFailure = none := by
          cases readFailure with
          | none => rfl
          | some k => exact absurd rfl hnf
        subst hrf
        have hsz := i7 (by simpa using hnc)
        have hflat : (blocksRead blockSize none (file.drop data.getIndexedSize)).flatten
            = file.drop data.getIndexedSize :=
          readBlocks_flatten blockSize hpos _ _ (le_refl _)
        rw [hflat] at hsz
        split
        · rename_i hc2
          refine ⟨⟨?_, ?_⟩, ?_, ?_⟩
          · simp only [IndexingData.addAll]
            refine List.pairwise_append.mpr ⟨i1, List.pairwise_singleton _ _, ?_⟩
            intro a ha b hb
            have := i2 a ha
            rw [List.mem_singleton.mp hb]
            omega
          · intro p hp
            simp only [IndexingData.addAll, List.length_nil, Nat.add_zero] at hp ⊢
            rcases List.mem_append.mp hp with hp | hp
            · have := i2 p hp
              omega
            · rw [List.mem_singleton.mp hp]
              omega
          · simp only [IndexingData.addAll]
            exact i4.trans (List.prefix_append _ _)
          · simp only [IndexingData.addAll]
            exact le_trans i5 (le_max_left _ _)
        · exact ⟨⟨i1, fun p hp => le_trans (i2 p hp) i3⟩, i4, i5⟩
  obtain ⟨r1, r2, _, r4, _⟩ := recordHeaderAndTail_fields env file
    (doIndexBlocks env file interruptRequest
      (blocksRead blockSize readFailure (file.drop data.getIndexedSize)) readFailure.isSome
      data data.getIndexedSize).1
  have hrun : (doIndex env interruptRequest readFailure blockSize file data
        data.getIndexedSize).1
      = recordHeaderAndTail env file
          (doIndexBlocks env file interruptRequest
            (blocksRead blockSize readFailure (file.drop data.getIndexedSize))
            readFailure.isSome data data.getIndexedSize).1 := rfl
  rw [hrun]
  refine ⟨⟨?_, ?_⟩, ?_, ?_⟩
  · rw [r1]; exact key.1.1
  · rw [r1, r4]; exact key.1.2
  · rw [r1]; exact key.2.1
  · rw [r2]; exact key.2.2

/-- A scan is cancelled exactly when its interrupt check observes the flag set after
one of its blocks. -/
theorem scanBlocks_cancelled_iff (env : IndexingEnv) (file : List Nat) (interruptRequest : Nat → Bool)
    (blocks : List (List Nat)) :
    ∀ (k beg : Nat) (data : IndexingData) (state : IndexingState),
      (scanBlocks env file interruptRequest k beg blocks data state).2.2 = true
        ↔ ∃ j, j < blocks.length ∧ interruptRequest (k + j) = true := by
  induction blocks with
  | nil =>
    intro k beg data state
    simp [scanBlocks]
  | cons block rest ih =>
    intro k beg data state
    by_cases hk : interruptRequest k = true
    · simp only [scanBlocks, hk, if_true, true_iff]
      exact ⟨0, by simp, by simpa using hk⟩
    · simp only [scanBlocks, hk, Bool.false_eq_true, if_false]
      rw [ih]
      constructor
      · rintro ⟨j, hj, hint⟩
        refine ⟨j + 1, by simpa using hj, ?_⟩
        have e : k + (j + 1) = k + 1 + j := by omega
        rw [e]; exact hint
      · rintro ⟨j, hj, hint⟩
        cases j with
        | zero => exact absurd hint hk
        | succ i =>
          refine ⟨i, by simpa using hj, ?_⟩
          have e : k + 1 + i = k + (i + 1) := by omega
          rw [e]; exact hint

/-- How a `doIndex` ends: cancelled when the interrupt check observes the flag set after
one of the blocks read; otherwise failed when a read fails; otherwise finished. -/
theorem doIndex_end (env : IndexingEnv) (interruptRequest : Nat → Bool)
    (readFailure : Option Nat) (blockSize : Nat) (file : List Nat) (data : IndexingData)
    (initialPosition : Nat) :
    ((∃ j, j < (blocksRead blockSize readFailure (file.drop initialPosition)).length
          ∧ interruptRequest j = true) →
        (doIndex env interruptRequest readFailure blockSize file data initialPosition).2
          = ScanEnd.cancelled)
    ∧ ((¬ ∃ j, j < (blocksRead blockSize readFailure (file.drop initialPosition)).length
          ∧ interruptRequest j = true) → readFailure.isSome = true →
        (doIndex env interruptRequest readFailure blockSize file data initialPosition).2
          = ScanEnd.failed)
    ∧ ((¬ ∃ j, j < (blocksRead blockSize readFailure (file.drop initialPosition)).length
          ∧ interruptRequest j = true) → readFailure = none →
        (doIndex env interruptRequest readFailure blockSize file data initialPosition).2
          = ScanEnd.finished) := by
  have hiff := scanBlocks_cancelled_iff env file interruptRequest
    (blocksRead blockSize readFailure (file.drop initialPosition)) 0 initialPosition data
    { encodingParams :=
        EncodingParameters.mk (data.encodingForced_.orElse (fun _ => data.encodingGuess_))
      pos := initialPosition
      file_size := file.length
      encodingGuess := data.encodingGuess_
      fileTextCodec := data.encodingForced_.orElse (fun _ => data.encodingGuess_) }
  simp only [Nat.zero_add] at hiff
  refine ⟨?_, ?_, ?_⟩
  · intro h
    have hc := hiff.mpr h
    simp only [doIndex, doIndexBlocks, hc, if_true]
  · intro h hf
    have hc : _ = false := Bool.eq_false_iff.mpr (fun hc => h (hiff.mp hc))
    simp only [doIndex, doIndexBlocks, hc, hf, Bool.false_eq_true, if_false, if_true]
  · intro h hf
    have hc : _ = false := Bool.eq_false_iff.mpr (fun hc => h (hiff.mp hc))
    subst hf
    simp only [doIndex, doIndexBlocks, hc, Option.isSome_none, Bool.false_eq_true, if_false]
    split <;> rfl

/-! ## Theorems: the line index -/

/-- Terminated lines followed by a non-empty tail without a line feed, scanned from the
start of a file of their size: the line ends found, with the end of the file for the
tail, are one more than the terminated lines. -/
theorem parseBytes_lines_tail (env : IndexingEnv) (file : List Nat) (codec : Option Nat)
    (lines : List (List Nat)) (tail : List Nat) (size : Nat)
    (hlines : ∀ l ∈ lines, lineFeed ∉ l) (htail : tail ≠ []) (hfree : lineFeed ∉ tail)
    (hsize : size = ((lines.map (· ++ [lineFeed])).flatten ++ tail).length) :
    ((parseBytes env file 0 ((lines.map (· ++ [lineFeed])).flatten ++ tail)
          (scanStart 0 codec)).1
      ++ (if size
            > (parseBytes env file 0 ((lines.map (· ++ [lineFeed])).flatten ++ tail)
                (scanStart 0 codec)).2.pos
          then [size] else [])).length = lines.length + 1 := by
  rw [List.length_append] at hsize
  obtain ⟨l1, l2⟩ := parseBytes_lines env file lines hlines 0 (scanStart 0 codec) rfl
  obtain ⟨n1, n2, _⟩ := parseBytes_no_lineFeed env file tail hfree
    (0 + (lines.map (· ++ [lineFeed])).flatten.length)
    (parseBytes env file 0 (lines.map (· ++ [lineFeed])).flatten (scanStart 0 codec)).2
  have htl : 0 < tail.length := List.length_pos.mpr htail
  rw [parseBytes_append]
  simp only [n1, n2, l2, List.append_nil, List.length_append, l1]
  split
  · rfl
  · omega

/-- The length of a line is counted in the characters of the codec in force: the three
bytes `C3 A9 0A` are one line of length 1 under the forced codec of variable width, and
of length 2 at one byte per character. -/
theorem line_length_is_counted_in_characters :
    (fullIndex sampleEnv 4 [195, 169, 10] (some 2) { }).getMaxLength = 1
    ∧ (fullIndex sampleEnv 4 [195, 169, 10] (some 0) { }).getMaxLength = 2
    ∧ (fullIndex sampleEnv 4 [195, 169, 10] (some 2) { }).linePosition_ = [3] := by
  refine ⟨by decide, by decide, by decide⟩

/-- The check of file changes against a hash recorded from the file content `A`:
`Unchanged` on `A` itself, `DataAdded` on `A` with bytes appended, and `Truncated` on any
file that is shorter than the indexed size, or whose header no longer has the recorded
digest, or whose bytes at the old tail offset no longer have the recorded digest. -/
theorem doCheckFileChanges_recorded (env : IndexingEnv) (h : IndexedHash)
    (A B file : List Nat) (hrec : h.RecordedFrom env A) (hB : B ≠ []) :
    doCheckFileChanges env h A = MonitoredFileStatus.Unchanged
    ∧ doCheckFileChanges env h (A ++ B) = MonitoredFileStatus.DataAdded
    ∧ (file.length < h.size → doCheckFileChanges env h file = MonitoredFileStatus.Truncated)
    ∧ (digestOf env (file.take h.headerSize) ≠ h.headerDigest →
        doCheckFileChanges env h file = MonitoredFileStatus.Truncated)
    ∧ (digestOf env ((file.drop h.tailOffset).take h.tailSize) ≠ h.tailDigest →
        doCheckFileChanges env h file = MonitoredFileStatus.Truncated) := by
  obtain ⟨hsize, hhead, htail, hhd, htd⟩ := hrec
  refine ⟨?_, ?_, ?_, ?_, ?_⟩
  · simp [doCheckFileChanges, hsize, ← hhd, ← htd]
  · have hlen : 0 < B.length := List.length_pos.mpr hB
    have h1 : ¬ A.length + B.length = h.size := by omega
    have h2 : A.length + B.length > h.size := by omega
    have h3 : (A ++ B).take h.headerSize = A.take h.headerSize :=
      List.take_append_of_le_length hhead
    have h4 : ((A ++ B).drop h.tailOffset).take h.tailSize
        = (A.drop h.tailOffset).take h.tailSize := by
      rw [List.drop_append_of_le_length (by omega)]
      apply List.take_append_of_le_length
      rw [List.length_drop]
      omega
    simp [doCheckFileChanges, h1, h2, h3, h4, ← hhd, ← htd]
  · intro hf
    have h1 : ¬ file.length = h.size := by omega
    have h2 : ¬ file.length > h.size := by omega
    simp [doCheckFileChanges, h1, h2]
  · intro hne
    simp [doCheckFileChanges, hne]
  · intro hne
    simp [doCheckFileChanges, hne]

/-- The hash that a full index leaves in the index is recorded from the file: its size
is the size of the file, its header is the leading `headerSize` bytes of the file, or
the whole file when it is shorter, and its tail the trailing `tailSize` bytes. -/
theorem fullIndex_recorded (env : IndexingEnv) (blockSize : Nat) (hpos : 0 < blockSize)
    (A : List Nat) (forcedEncoding : Option Nat) (data : IndexingData) :
    (fullIndex env blockSize A forcedEncoding data).getHash.RecordedFrom env A
    ∧ (fullIndex env blockSize A forcedEncoding data).getHash.size = A.length
    ∧ (fullIndex env blockSize A forcedEncoding data).getHash.headerSize
        = min env.headerSize A.length
    ∧ (fullIndex env blockSize A forcedEncoding data).getHash.headerDigest
        = digestOf env (A.take (min env.headerSize A.length))
    ∧ (fullIndex env blockSize A forcedEncoding data).getHash.tailSize
        = min env.tailSize A.length
    ∧ (fullIndex env blockSize A forcedEncoding data).getHash.tailOffset
        = A.length - min env.tailSize A.length
    ∧ (fullIndex env blockSize A forcedEncoding data).getHash.tailDigest
        = digestOf env
            ((A.drop (A.length - min env.tailSize A.length)).take
              (min env.tailSize A.length)) := by
  obtain ⟨_, _, _, f4, _⟩ := fullIndex_fields env blockSize hpos A forcedEncoding data
  obtain ⟨d1, d2, d3, d4, d5⟩ := doIndex_hash env neverInterrupted none blockSize A
    ((data.clear).forceEncoding forcedEncoding) 0
  have hrun : fullIndex env blockSize A forcedEncoding data
      = (doIndex env neverInterrupted none blockSize A
          ((data.clear).forceEncoding forcedEncoding) 0).1 := rfl
  rw [← hrun] at d1 d2 d3 d4 d5
  rw [f4] at d1 d2 d3 d4 d5
  simp only [IndexingData.getHash]
  refine ⟨⟨f4, ?_, ?_, ?_, ?_⟩, f4, d1, d2, d3, d4, d5⟩
  · rw [d1]; exact Nat.min_le_right _ _
  · rw [d3, d4]
    have := Nat.min_le_right env.tailSize A.length
    omega
  · rw [d2, d1]
  · rw [d5, d4, d3]

/-- C6, the claim as stated fails: `addAll` stores the positions it is passed as they
are; called with the position 3 on an index that holds the position 5, it leaves the
positions `[5, 3]`, which are not increasing. -/
theorem addAll_can_break_order :
    (({ linePosition_ := [5] } : IndexingData).linePosition_.Pairwise (· < ·))
    ∧ (({ linePosition_ := [5] } : IndexingData).addAll sampleEnv [] 0 [3] none).linePosition_
        = [5, 3]
    ∧ ¬ ((({ linePosition_ := [5] } : IndexingData).addAll sampleEnv [] 0 [3]
          none).linePosition_.Pairwise (· < ·)) := by
  refine ⟨by decide, by decide, by decide⟩

/-- C6 (amended): `addAll` only appends to the line positions (the positions held before
the call are a leading part of those held after it) and never lowers the maximum length.
The positions it leaves are strictly increasing exactly when the stored ones were, the
ones passed are, and every stored one is below every one passed. The index operations
pass such positions: whatever the interrupt flag does and whichever read fails, a full
index leaves the stored positions strictly increasing, and so does a partial index of a
well-formed index, which keeps the positions held before it as a leading part and does
not lower the maximum length. -/
theorem addAll_keeps_index_ordered (env : IndexingEnv) (data : IndexingData)
    (block : List Nat) (length : Nat) (linePosition : List Nat) (encoding : Option Nat) :
    data.linePosition_ <+: (data.addAll env block length linePosition encoding).linePosition_
    ∧ (data.addAll env block length linePosition encoding).linePosition_
        = data.linePosition_ ++ linePosition
    ∧ data.getMaxLength ≤ (data.addAll env block length linePosition encoding).getMaxLength
    ∧ ((data.addAll env block length linePosition encoding).linePosition_.Pairwise (· < ·)
        ↔ (data.linePosition_.Pairwise (· < ·) ∧ linePosition.Pairwise (· < ·)
            ∧ ∀ a ∈ data.linePosition_, ∀ b ∈ linePosition, a < b))
    ∧ (∀ (interruptRequest : Nat → Bool) (readFailure : Option Nat) (blockSize : Nat)
          (file : List Nat) (forcedEncoding : Option Nat), 0 < blockSize →
        (FullIndexOperation.run env interruptRequest readFailure blockSize file forcedEncoding
          data).1.linePosition_.Pairwise (· < ·)
        ∧ (FullIndexOperation.run env interruptRequest readFailure blockSize file
          forcedEncoding data).1.WellFormed)
    ∧ (∀ (interruptRequest : Nat → Bool) (readFailure : Option Nat) (blockSize : Nat)
          (file : List Nat), 0 < blockSize → data.WellFormed →
        (PartialIndexOperation.run env interruptRequest readFailure blockSize file
          data).1.linePosition_.Pairwise (· < ·)
        ∧ (PartialIndexOperation.run env interruptRequest readFailure blockSize file
          data).1.WellFormed
        ∧ data.linePosition_
          <+: (PartialIndexOperation.run env interruptRequest readFailure blockSize file
            data).1.linePosition_
        ∧ data.getMaxLength
          ≤ (PartialIndexOperation.run env interruptRequest readFailure blockSize file
            data).1.getMaxLength) := by
  refine ⟨?_, rfl, ?_, ?_, ?_, ?_⟩
  · simp only [IndexingData.addAll]; exact List.prefix_append _ _
  · simp only [IndexingData.addAll, IndexingData.getMaxLength]; exact le_max_left _ _
  · simp only [IndexingData.addAll]
    exact List.pairwise_append
  · intro interruptRequest readFailure blockSize file forcedEncoding hpos
    have hforced : ((data.clear).forceEncoding forcedEncoding).WellFormed := by
      refine ⟨List.Pairwise.nil, ?_⟩
      intro p hp
      cases hp
    have hfull := doIndex_wellFormed env interruptRequest readFailure blockSize hpos file
      ((data.clear).forceEncoding forcedEncoding) hforced
    exact ⟨hfull.1.1, hfull.1⟩
  · intro interruptRequest readFailure blockSize file hpos hwf
    have hpart := doIndex_wellFormed env interruptRequest readFailure blockSize hpos file
      data hwf
    exact ⟨hpart.1.1, hpart.1, hpart.2.1, hpart.2.2⟩

/-- A `doIndex` finishes exactly when no interrupt check after a block read observes
the flag set and no read fails. -/
theorem doIndex_finished_iff (env : IndexingEnv) (interruptRequest : Nat → Bool)
    (readFailure : Option Nat) (blockSize : Nat) (file : List Nat) (data : IndexingData)
    (initialPosition : Nat) :
    (doIndex env interruptRequest readFailure blockSize file data initialPosition).2
        = ScanEnd.finished
      ↔ ¬ ((∃ j, j < (blocksRead blockSize readFailure (file.drop initialPosition)).length
              ∧ interruptRequest j = true)
            ∨ readFailure.isSome = true) := by
  obtain ⟨e1, e2, e3⟩ := doIndex_end env interruptRequest readFailure blockSize file data
    initialPosition
  by_cases hc : ∃ j, j < (blocksRead blockSize readFailure (file.drop initialPosition)).length
      ∧ interruptRequest j = true
  · rw [e1 hc]
    simp [hc]
  · cases hf : readFailure with
    | none =>
      rw [hf] at e3 hc
      rw [e3 hc rfl]
      simp [hc]
    | some k =>
      rw [hf] at e2 hc
      rw [e2 hc rfl]
      simp

/-- C12: `setHeaderHash(digest, size)` sets the header digest and the header size and
`setTailHash(digest, offset, size)` sets the tail digest, offset and size; each leaves
the other fields of the recorded hash, the line positions, the maximum length, the
digest state and the encodings as they were. -/
theorem setHash_sets_its_group_only (d : IndexingData) (digest offset size : Nat) :
    (d.setHeaderHash digest size).getHash
        = { d.getHash with headerSize := size, headerDigest := digest }
    ∧ (d.setHeaderHash digest size).getHash.headerDigest = digest
    ∧ (d.setHeaderHash digest size).getHash.headerSize = size
    ∧ (d.setHeaderHash digest size).getHash.size = d.getHash.size
    ∧ (d.setHeaderHash digest size).getHash.fullDigest = d.getHash.fullDigest
    ∧ (d.setHeaderHash digest size).getHash.tailDigest = d.getHash.tailDigest
    ∧ (d.setHeaderHash digest size).getHash.tailOffset = d.getHash.tailOffset
    ∧ (d.setHeaderHash digest size).getHash.tailSize = d.getHash.tailSize
    ∧ d.setHeaderHash digest size
        = { d with hash_ := { d.hash_ with headerSize := size, headerDigest := digest } }
    ∧ (d.setTailHash digest offset size).getHash
        = { d.getHash with tailSize := size, tailOffset := offset, tailDigest := digest }
    ∧ (d.setTailHash digest offset size).getHash.tailDigest = digest
    ∧ (d.setTailHash digest offset size).getHash.tailOffset = offset
    ∧ (d.setTailHash digest offset size).getHash.tailSize = size
    ∧ (d.setTailHash digest offset size).getHash.size = d.getHash.size
    ∧ (d.setTailHash digest offset size).getHash.fullDigest = d.getHash.fullDigest
    ∧ (d.setTailHash digest offset size).getHash.headerDigest = d.getHash.headerDigest
    ∧ (d.setTailHash digest offset size).getHash.headerSize = d.getHash.headerSize
    ∧ d.setTailHash digest offset size
        = { d with hash_ :=
            { d.hash_ with tailSize := size, tailOffset := offset, tailDigest := digest } }
    ∧ (d.setHeaderHash digest size).linePosition_ = d.linePosition_
    ∧ (d.setHeaderHash digest size).getMaxLength = d.getMaxLength
    ∧ (d.setHeaderHash digest size).hashBuilder_ = d.hashBuilder_
    ∧ (d.setHeaderHash digest size).encodingGuess_ = d.encodingGuess_
    ∧ (d.setHeaderHash digest size).encodingForced_ = d.encodingForced_
    ∧ (d.setTailHash digest offset size).linePosition_ = d.linePosition_
    ∧ (d.setTailHash digest offset size).getMaxLength = d.getMaxLength
    ∧ (d.setTailHash digest offset size).hashBuilder_ = d.hashBuilder_
    ∧ (d.setTailHash digest offset size).encodingGuess_ = d.encodingGuess_
    ∧ (d.setTailHash digest offset size).encodingForced_ = d.encodingForced_ := by
  refine ⟨rfl, rfl, rfl, rfl, rfl, rfl, rfl, rfl, rfl, rfl, rfl, rfl, rfl, rfl, rfl, rfl, rfl,
    rfl, rfl, rfl, rfl, rfl, rfl, rfl, rfl, rfl, rfl, rfl⟩

/-! ## Theorems: the crawler widget -/

/-- C18, the code at the failing input: from `TruncatedAutorefreshing`,
`changeExpression` leaves the state `TruncatedAutorefreshing`, and so does
`searchTextChangeHandler`; the state is reached by asking for auto-refresh, starting a
search and truncating the file. From every other state the state after
`changeExpression` is neither `Autorefreshing` nor `TruncatedAutorefreshing`. -/
theorem changeExpression_keeps_truncated_autorefreshing :
    (∀ requested : Bool,
      (SearchState.mk SearchState.State.TruncatedAutorefreshing requested).changeExpression
        = SearchState.mk SearchState.State.TruncatedAutorefreshing requested)
    ∧ (∀ (env : WidgetEnv) (w : CrawlerWidget),
        w.searchState_.state_ = SearchState.State.TruncatedAutorefreshing →
        (w.searchTextChangeHandler env).searchState_.state_
          = SearchState.State.TruncatedAutorefreshing)
    ∧ ((CrawlerWidget.searchTextChangeHandler sampleWidgetEnv
          { sampleWidget with
            searchState_ := SearchState.mk SearchState.State.TruncatedAutorefreshing true
          }).searchState_.state_.isAutorefreshing = true)
    ∧ ((((((SearchState.mk SearchState.State.NoSearch false).setAutorefresh
          true).startSearch).truncateFile).changeExpression).state_
        = SearchState.State.TruncatedAutorefreshing)
    ∧ (∀ s : SearchState, s.state_ ≠ SearchState.State.TruncatedAutorefreshing →
        s.changeExpression.state_.isAutorefreshing = false) := by
  refine ⟨fun _ => rfl, ?_, by decide, by decide, ?_⟩
  · intro env w h
    simp [CrawlerWidget.searchTextChangeHandler, CrawlerWidget.printSearchInfoMessage,
      SearchState.changeExpression, h]
  · intro s h
    obtain ⟨state, requested⟩ := s
    cases state <;> simp_all [SearchState.changeExpression, SearchState.State.isAutorefreshing]

/-- C19: `changeDataStatus(s)` sets the status to `s` and emits `dataStatusChanged(s)`
exactly when `s` differs from the current status and the change is not from
`NEW_FILTERED_DATA` to `NEW_DATA`; otherwise the widget is left as it is. A
`NEW_FILTERED_DATA` status is not overwritten by `NEW_DATA`, and a second call with the
same status emits nothing. -/
theorem changeDataStatus_emits_on_change (w : CrawlerWidget) (s : DataStatus) :
    ((s ≠ w.dataStatus_ ∧ ¬ (w.dataStatus_ = DataStatus.NEW_FILTERED_DATA ∧ s = DataStatus.NEW_DATA)) →
        w.changeDataStatus s
          = { w with dataStatus_ := s, emitted := w.emitted ++ [Signal.dataStatusChanged s] })
    ∧ (¬ (s ≠ w.dataStatus_
          ∧ ¬ (w.dataStatus_ = DataStatus.NEW_FILTERED_DATA ∧ s = DataStatus.NEW_DATA)) →
        w.changeDataStatus s = w)
    ∧ (w.changeDataStatus s).emitted
        = w.emitted
          ++ (if s ≠ w.dataStatus_
                ∧ ¬ (w.dataStatus_ = DataStatus.NEW_FILTERED_DATA ∧ s = DataStatus.NEW_DATA)
              then [Signal.dataStatusChanged s] else [])
    ∧ (w.changeDataStatus s).dataStatus_
        = (if s ≠ w.dataStatus_
              ∧ ¬ (w.dataStatus_ = DataStatus.NEW_FILTERED_DATA ∧ s = DataStatus.NEW_DATA)
            then s else w.dataStatus_)
    ∧ (w.dataStatus_ = DataStatus.NEW_FILTERED_DATA →
        w.changeDataStatus DataStatus.NEW_DATA = w)
    ∧ (w.changeDataStatus s).changeDataStatus s = w.changeDataStatus s
    ∧ ((w.changeDataStatus s).changeDataStatus s).emitted.length ≤ w.emitted.length + 1 := by
  have hidem : (w.changeDataStatus s).changeDataStatus s = w.changeDataStatus s := by
    obtain ⟨status⟩ : ∃ status, w.dataStatus_ = status := ⟨_, rfl⟩
    cases s <;> cases status <;> simp_all [CrawlerWidget.changeDataStatus]
  refine ⟨?_, ?_, ?_, ?_, ?_, hidem, ?_⟩
  · intro h
    simp [CrawlerWidget.changeDataStatus, h]
  · intro h
    simp only [CrawlerWidget.changeDataStatus, if_neg h]
  · by_cases h : s ≠ w.dataStatus_
        ∧ ¬ (w.dataStatus_ = DataStatus.NEW_FILTERED_DATA ∧ s = DataStatus.NEW_DATA)
    · simp only [CrawlerWidget.changeDataStatus, if_pos h]
    · simp only [CrawlerWidget.changeDataStatus, if_neg h, List.append_nil]
  · by_cases h : s ≠ w.dataStatus_
        ∧ ¬ (w.dataStatus_ = DataStatus.NEW_FILTERED_DATA ∧ s = DataStatus.NEW_DATA)
    · simp only [CrawlerWidget.changeDataStatus, if_pos h]
    · simp only [CrawlerWidget.changeDataStatus, if_neg h]
  · intro h
    simp [CrawlerWidget.changeDataStatus, h]
  · rw [hidem]
    by_cases h : s ≠ w.dataStatus_
        ∧ ¬ (w.dataStatus_ = DataStatus.NEW_FILTERED_DATA ∧ s = DataStatus.NEW_DATA)
    · simp only [CrawlerWidget.changeDataStatus, if_pos h, List.length_append,
        List.length_singleton, le_refl]
    · simp only [CrawlerWidget.changeDataStatus, if_neg h]
      omega

/-- The patterns passed to `runSearch` in two runs of calls are those of the first run
followed by those of the second. -/
theorem runSearchPatterns_append (a b : List Call) :
    runSearchPatterns (a ++ b) = runSearchPatterns a ++ runSearchPatterns b := by
  induction a with
  | nil => rfl
  | cons c rest ih => cases c <;> simp [runSearchPatterns, ih]

/-- The calls of `replaceCurrentSearch` on an accepted pattern. -/
theorem replaceCurrentSearch_accepted (env : WidgetEnv) (w : CrawlerWidget) (searchText : String)
    (hne : searchText.isEmpty = false)
    (hvalid : (env.checkExpression (if w.useRegexpButton then searchText else env.escape searchText)
      w.matchCaseButton w.inverseButton).1 = true) :
    w.replaceCurrentSearch env searchText
      = { w with
          nbMatches_ := 0
          stopButtonEnabled := true
          stopButtonVisible := true
          searchButtonVisible := false
          searchState_ := w.searchState_.startSearch
          searchInfoLine := { w.searchInfoLine with visible := false }
          calls := w.calls ++ [Call.interruptSearch] ++ [Call.processEvents]
            ++ [Call.clearSearch] ++ [Call.filteredViewUpdateData]
            ++ [Call.overviewUpdateData w.logDataNbLine]
            ++ [Call.runSearch
                  (RegularExpressionPattern.mk
                    (if w.useRegexpButton then searchText else env.escape searchText)
                    w.matchCaseButton w.inverseButton)
                  w.searchStartLine_ w.searchEndLine_] } := by
  cases hu : w.useRegexpButton <;> simp only [hu, Bool.false_eq_true, if_false, if_true] at hvalid
    <;> simp [CrawlerWidget.replaceCurrentSearch, CrawlerWidget.call, hne, hu, hvalid]

/-- The calls of `replaceCurrentSearch` on a pattern that is not accepted. -/
theorem replaceCurrentSearch_rejected (env : WidgetEnv) (w : CrawlerWidget) (searchText : String)
    (hne : searchText.isEmpty = false)
    (hinvalid : (env.checkExpression
      (if w.useRegexpButton then searchText else env.escape searchText)
      w.matchCaseButton w.inverseButton).1 = false) :
    w.replaceCurrentSearch env searchText
      = { w with
          nbMatches_ := 0
          searchState_ := w.searchState_.resetState
          searchInfoLine :=
            { text := env.tr "Error in expression" ++ ": "
                ++ (env.checkExpression
                    (if w.useRegexpButton then searchText else env.escape searchText)
                    w.matchCaseButton w.inverseButton).2
              palette := QPalette.errorPalette
              visible := true }
          calls := w.calls ++ [Call.interruptSearch] ++ [Call.processEvents]
            ++ [Call.clearSearch] ++ [Call.filteredViewUpdateData]
            ++ [Call.overviewUpdateData w.logDataNbLine]
            ++ [Call.clearSearch] ++ [Call.filteredViewUpdateData] } := by
  cases hu : w.useRegexpButton <;> simp only [hu, Bool.false_eq_true, if_false, if_true] at hinvalid
    <;> simp [CrawlerWidget.replaceCurrentSearch, CrawlerWidget.call, hne, hu, hinvalid]

/-- The check of `replaceCurrentSearch` in a build with the automaton engine: the
pattern is accepted when the automaton engine accepts it or, failing that, when the
library accepts the regular expression of the check. -/
theorem checkExpression_automaton (env : WidgetEnv) (hs : HsEngine) (hbuild : env.hs = some hs)
    (pattern : String) (matchCase inverse : Bool) :
    ((env.checkExpression pattern matchCase inverse).1 = true
      ↔ (hs.isValid (RegularExpressionPattern.mk pattern matchCase inverse) = true
          ∨ env.engine.isValid (fallbackCheckRegexp pattern matchCase) = true))
    ∧ (hs.isValid (RegularExpressionPattern.mk pattern matchCase inverse) = false →
        (env.checkExpression pattern matchCase inverse).2
          = env.engine.errorString (fallbackCheckRegexp pattern matchCase)) := by
  unfold WidgetEnv.checkExpression
  rw [hbuild]
  simp only [Klogg.checkExpression]
  cases hv : hs.isValid (RegularExpressionPattern.mk pattern matchCase inverse) <;> simp

/-- The check of `replaceCurrentSearch` in a build without the automaton engine: the
pattern is accepted when the library accepts the regular expression the matcher is built
with. -/
theorem checkExpression_fallback (env : WidgetEnv) (hbuild : env.hs = none)
    (pattern : String) (matchCase inverse : Bool) :
    env.checkExpression pattern matchCase inverse
      = (env.engine.isValid
            (RegularExpressionPattern.mk pattern matchCase inverse).toQRegularExpression,
          env.engine.errorString
            (RegularExpressionPattern.mk pattern matchCase inverse).toQRegularExpression) := by
  unfold WidgetEnv.checkExpression
  rw [hbuild]
  rfl

/-- C20, the claim as stated fails: for the non-empty search text `(a)\1` with "Use
regex" checked, in a build without the automaton engine and with a library that refuses
the back-reference, no pattern is passed to `runSearch`. -/
theorem refused_text_passes_no_pattern :
    "(a)\\1".isEmpty = false
    ∧ runSearchPatterns (sampleWidget.replaceCurrentSearch sampleWidgetEnv "(a)\\1").calls = []
    ∧ (sampleWidget.replaceCurrentSearch sampleWidgetEnv "(a)\\1").searchState_.state_
        = SearchState.State.NoSearch := by
  refine ⟨by decide, by decide, by decide⟩

/-- C20 (amended): for every non-empty search text, with `p` the pattern whose text is
the search text verbatim when "Use regex" is checked and the escaped search text
otherwise, whose `isCaseSensitive` is the state of "Match case" and whose `isExclude`
is the state of "Inverse match": after the five calls that interrupt and clear the
current search, `replaceCurrentSearch` calls `runSearch` once with `p` and the search
limits when the pattern is accepted, and clears the filtered results without calling
`runSearch` when it is not. In a build with the automaton engine the pattern is accepted
when that engine accepts `p` or the library accepts the regular expression of the check;
in a build without it, when the library accepts the regular expression of `p`. For an
empty search text `runSearch` is not called and the search state is reset to
`NoSearch`. -/
theorem replaceCurrentSearch_pattern (env : WidgetEnv) (w : CrawlerWidget)
    (searchText : String) :
    (∀ hs : HsEngine, env.hs = some hs → searchText.isEmpty = false →
        (w.replaceCurrentSearch env searchText).calls
          = w.calls ++ [Call.interruptSearch, Call.processEvents, Call.clearSearch,
              Call.filteredViewUpdateData, Call.overviewUpdateData w.logDataNbLine]
            ++ (if hs.isValid
                    (RegularExpressionPattern.mk
                      (if w.useRegexpButton then searchText else env.escape searchText)
                      w.matchCaseButton w.inverseButton) = true
                  ∨ env.engine.isValid
                    (fallbackCheckRegexp
                      (if w.useRegexpButton then searchText else env.escape searchText)
                      w.matchCaseButton) = true
                then [Call.runSearch
                  (RegularExpressionPattern.mk
                    (if w.useRegexpButton then searchText else env.escape searchText)
                    w.matchCaseButton w.inverseButton)
                  w.searchStartLine_ w.searchEndLine_]
                else [Call.clearSearch, Call.filteredViewUpdateData]))
    ∧ (env.hs = none → searchText.isEmpty = false →
        (w.replaceCurrentSearch env searchText).calls
          = w.calls ++ [Call.interruptSearch, Call.processEvents, Call.clearSearch,
              Call.filteredViewUpdateData, Call.overviewUpdateData w.logDataNbLine]
            ++ (if env.engine.isValid
                    (RegularExpressionPattern.mk
                      (if w.useRegexpButton then searchText else env.escape searchText)
                      w.matchCaseButton w.inverseButton).toQRegularExpression = true
                then [Call.runSearch
                  (RegularExpressionPattern.mk
                    (if w.useRegexpButton then searchText else env.escape searchText)
                    w.matchCaseButton w.inverseButton)
                  w.searchStartLine_ w.searchEndLine_]
                else [Call.clearSearch, Call.filteredViewUpdateData]))
    ∧ (searchText.isEmpty = true →
        runSearchPatterns (w.replaceCurrentSearch env searchText).calls
          = runSearchPatterns w.calls
        ∧ (w.replaceCurrentSearch env searchText).searchState_.state_
          = SearchState.State.NoSearch
        ∧ (w.replaceCurrentSearch env searchText).searchState_.autoRefreshRequested_
          = w.searchState_.autoRefreshRequested_
        ∧ (w.replaceCurrentSearch env searchText).searchInfoLine
          = InfoLine.mk "" w.searchInfoLineDefaultPalette false) := by
  have key : searchText.isEmpty = false →
      (w.replaceCurrentSearch env searchText).calls
        = w.calls ++ [Call.interruptSearch, Call.processEvents, Call.clearSearch,
            Call.filteredViewUpdateData, Call.overviewUpdateData w.logDataNbLine]
          ++ (if (env.checkExpression
                  (if w.useRegexpButton then searchText else env.escape searchText)
                  w.matchCaseButton w.inverseButton).1 = true
              then [Call.runSearch
                (RegularExpressionPattern.mk
                  (if w.useRegexpButton then searchText else env.escape searchText)
                  w.matchCaseButton w.inverseButton)
                w.searchStartLine_ w.searchEndLine_]
              else [Call.clearSearch, Call.filteredViewUpdateData]) := by
    intro hne
    by_cases hvalid : (env.checkExpression
        (if w.useRegexpButton then searchText else env.escape searchText)
        w.matchCaseButton w.inverseButton).1 = true
    · rw [replaceCurrentSearch_accepted env w searchText hne hvalid, if_pos hvalid]
      simp
    · have hinvalid := Bool.eq_false_iff.mpr hvalid
      rw [replaceCurrentSearch_rejected env w searchText hne hinvalid, if_neg hvalid]
      simp
  refine ⟨?_, ?_, ?_⟩
  · intro hs hbuild hne
    rw [key hne]
    have hiff := (checkExpression_automaton env hs hbuild
      (if w.useRegexpButton then searchText else env.escape searchText)
      w.matchCaseButton w.inverseButton).1
    by_cases hvalid : (env.checkExpression
        (if w.useRegexpButton then searchText else env.escape searchText)
        w.matchCaseButton w.inverseButton).1 = true
    · rw [if_pos hvalid, if_pos (hiff.mp hvalid)]
    · rw [if_neg hvalid, if_neg (fun h => hvalid (hiff.mpr h))]
  · intro hbuild hne
    rw [key hne, checkExpression_fallback env hbuild]
  · intro hempty
    have hnil : "".isEmpty = true := by decide
    simp [CrawlerWidget.replaceCurrentSearch, CrawlerWidget.call, hempty,
      CrawlerWidget.printSearchInfoMessage, SearchState.resetState, runSearchPatterns_append,
      runSearchPatterns, hnil]

/-! ## Theorems: the command line -/

/-- An integer between 0 and 2^62 is stored in an `int64_t` as it is. -/
theorem toInt64_of_small (x : Int) (h0 : 0 ≤ x) (h1 : x < 2 ^ 62) : toInt64 x = x := by
  unfold toInt64
  omega

/-- The calls of `main` when the instance is not a second one that hands its files to the
first. -/
theorem mainCalls_primary (env : MainEnv) (parameters : CliParameters)
    (hprimary : parameters.multi_instance = true ∨ env.isSecondary = false) :
    mainCalls env parameters
      = [AppCall.initLogger parameters.log_level parameters.log_to_file,
          AppCall.initCrashHandler, AppCall.getSynced, AppCall.enableLogging,
          AppCall.applyStyle]
        ++ (if parameters.load_session = true
              ∨ (parameters.filenames = [] ∧ parameters.new_session = false
                  ∧ env.loadLastSession = true)
            then [AppCall.reloadSession]
            else [AppCall.newWindow, AppCall.reloadGeometry, AppCall.showWindow])
        ++ (if 0 < parameters.window_width ∧ 0 < parameters.window_height
            then [AppCall.resize parameters.window_width parameters.window_height] else [])
        ++ parameters.filenames.map
            (fun filename => AppCall.loadInitialFile filename parameters.follow_file)
        ++ (if parameters.load_session = true
              ∨ (parameters.filenames = [] ∧ parameters.new_session = false
                  ∧ env.loadLastSession = true)
            then [] else [AppCall.clearInactiveSessions])
        ++ [AppCall.startBackgroundTasks, AppCall.exec] := by
  have hbranch : (!parameters.multi_instance && env.isSecondary) = false := by
    rcases hprimary with h | h <;> simp [h]
  by_cases hsession : parameters.load_session = true
      ∨ (parameters.filenames = [] ∧ parameters.new_session = false
          ∧ env.loadLastSession = true)
  · have hcond : (parameters.load_session
          || (parameters.filenames.isEmpty && !parameters.new_session
              && env.loadLastSession)) = true := by
      rcases hsession with h | ⟨h1, h2, h3⟩
      · simp [h]
      · simp [h1, h2, h3]
    by_cases hsize : 0 < parameters.window_width ∧ 0 < parameters.window_height
    · simp [mainCalls, hbranch, hcond, hsession, hsize]
    · have hsize' : ¬ (0 < parameters.window_width ∧ 0 < parameters.window_height) := hsize
      simp only [not_and] at hsize
      simp [mainCalls, hbranch, hcond, hsession, hsize', hsize]
  · have hcond : (parameters.load_session
          || (parameters.filenames.isEmpty && !parameters.new_session
              && env.loadLastSession)) = false := by
      rw [Bool.eq_false_iff]
      intro h
      apply hsession
      simp only [Bool.or_eq_true, Bool.and_eq_true, List.isEmpty_iff, Bool.not_eq_true'] at h
      rcases h with h | ⟨⟨h1, h2⟩, h3⟩
      · exact Or.inl h
      · exact Or.inr ⟨h1, h2, h3⟩
    by_cases hsize : 0 < parameters.window_width ∧ 0 < parameters.window_height
    · simp [mainCalls, hbranch, hcond, hsession, hsize]
    · have hsize' : ¬ (0 < parameters.window_width ∧ 0 < parameters.window_height) := hsize
      simp only [not_and] at hsize
      simp [mainCalls, hbranch, hcond, hsession, hsize', hsize]

/-- The first call of `main` is the one that sets the logger up. -/
theorem mainCalls_head (env : MainEnv) (parameters : CliParameters) :
    (mainCalls env parameters).head?
      = some (AppCall.initLogger parameters.log_level parameters.log_to_file) := by
  unfold mainCalls
  simp only [List.cons_append, List.nil_append]
  split
  · rfl
  · split <;> split <;> split <;> rfl

/-- The parser keeps no file name exactly when every file argument of the command line
decodes to the empty name; an argument that does is dropped (main.cpp:170-176). -/
theorem parse_filenames_eq_nil (env : MainEnv) (cmd : CommandLine) :
    (CliParameters.parse env cmd).filenames = []
      ↔ ∀ file ∈ cmd.files, (env.decodeName file).isEmpty = true := by
  have hfiles : (CliParameters.parse env cmd).filenames
      = cmd.files.filterMap fun file =>
          if !(env.decodeName file).isEmpty then some (env.absoluteFilePath (env.decodeName file))
          else none := by
    unfold CliParameters.parse; split <;> rfl
  rw [hfiles]
  generalize cmd.files = files
  induction files with
  | nil => simp
  | cons file rest ih =>
    cases hd : (env.decodeName file).isEmpty
    · simp [List.filterMap_cons, hd]
    · simp [List.filterMap_cons, hd, ih]

/-- C16: the log level passed to `initLogger` is `plog::warning` when no `-d` is given
and `plog::warning + k` when `-d` is given `k` times (`k` below 2^31, the options being
counted in an `int`), so it does not decrease as more `-d` are given. -/
theorem log_level_grows_with_debug (env : MainEnv) (cmd : CommandLine) (k more : Nat)
    (hk : k + more < 2 ^ 31) :
    logLevel env { cmd with debug := 0 } = plog.warning
    ∧ logLevel env { cmd with debug := k } = plog.warning + k
    ∧ logLevel env { cmd with debug := k }
        ≤ logLevel env { cmd with debug := k + more }
    ∧ (main env { cmd with debug := k }).head?
        = some (AppCall.initLogger (plog.warning + k) cmd.log) := by
  have hw : toInt64 plog.warning = plog.warning := by
    unfold toInt64 plog.warning; omega
  have hlevel : ∀ n : Nat, n < 2 ^ 31 →
      logLevel env { cmd with debug := n } = plog.warning + n := by
    intro n hn
    unfold logLevel CliParameters.parse
    by_cases h0 : n = 0
    · subst h0
      simp [hw]
    · have hpos : n > 0 := Nat.pos_of_ne_zero h0
      have hn' : (n : Int) < 2 ^ 31 := by exact_mod_cast hn
      have h1 : toInt64 (n : Int) = n := toInt64_of_small _ (by omega) (by omega)
      have h2 : toInt64 (plog.warning + n) = plog.warning + n :=
        toInt64_of_small _ (by unfold plog.warning; omega) (by unfold plog.warning; omega)
      simp [hpos, hw, h1, h2]
  have hk1 : k < 2 ^ 31 := by omega
  refine ⟨?_, hlevel k hk1, ?_, ?_⟩
  · have := hlevel 0 (by omega)
    simpa using this
  · rw [hlevel k hk1, hlevel (k + more) hk]
    push_cast
    omega
  · have h := hlevel k hk1
    unfold logLevel at h
    have hlog : (CliParameters.parse env { cmd with debug := k }).log_to_file = cmd.log := by
      unfold CliParameters.parse; split <;> rfl
    unfold main
    rw [mainCalls_head, h, hlog]

/-- C16 at a concrete input: `-d` given twice and then four times. -/
theorem log_level_grows_with_debug_witness :
    2 + 2 < 2 ^ 31
    ∧ logLevel sampleMainEnv { emptyCommandLine with debug := 2 }
        ≤ logLevel sampleMainEnv { emptyCommandLine with debug := 2 + 2 } :=
  ⟨by decide, (log_level_grows_with_debug sampleMainEnv emptyCommandLine 2 2 (by decide)).2.2.1⟩

/-! ## Theorems: the view context -/

/-- The map built by `toString`, with its keys in sorted order. -/
theorem CrawlerWidgetContext.properties_sorted (c : CrawlerWidgetContext) :
    c.properties
      = [("AR", QVariant.bool c.auto_refresh_), ("FF", QVariant.bool c.follow_file_),
          ("IC", QVariant.bool c.ignore_case_), ("IR", QVariant.bool c.inverse_regexp_),
          ("M", QVariant.list (c.marks_.map fun (item : Nat) => QVariant.number (Int.ofNat item))),
          ("RE", QVariant.bool c.use_regexp_),
          ("S", QVariant.list (c.sizes_.map fun item => QVariant.number item))] := by
  rfl

/-- Integers of 32 bits come back from a variant list through `toInt` as they are. -/
theorem toInt_number_list (sizes : List Int)
    (hsizes : ∀ s ∈ sizes, -2 ^ 31 ≤ s ∧ s < 2 ^ 31) :
    (sizes.map fun item => QVariant.number item).map (fun s => s.toInt) = sizes := by
  induction sizes with
  | nil => rfl
  | cons s rest ih =>
    have h := hsizes s (List.mem_cons_self _ _)
    have hrest := ih fun t ht => hsizes t (List.mem_cons_of_mem _ ht)
    simp only [List.map_cons, hrest, QVariant.toInt]
    congr 1
    omega

/-- Unsigned integers of 32 bits come back from a variant list through `toUInt` as they
are. -/
theorem toUInt_number_list (marks : List Nat) (hmarks : ∀ m ∈ marks, m < 2 ^ 32) :
    (marks.map fun (item : Nat) => QVariant.number (Int.ofNat item)).map (fun m => m.toUInt)
      = marks := by
  induction marks with
  | nil => rfl
  | cons m rest ih =>
    have h := hmarks m (List.mem_cons_self _ _)
    have hrest := ih fun t ht => hmarks t (List.mem_cons_of_mem _ ht)
    simp only [List.map_cons, hrest, QVariant.toUInt]
    congr 1
    have h' : (Int.ofNat m) % 2 ^ 32 = Int.ofNat m := by
      have : (m : Int) < 2 ^ 32 := by exact_mod_cast h
      show (m : Int) % 2 ^ 32 = (m : Int)
      omega
    rw [h']
    rfl

/-- C17: for every view context built from values (sizes that are `int`, marked lines
that `toUInt` can hold), when the JSON library writes an object with an opening brace
first and reads the written map back as it was, the stored string begins with an opening
brace, the JSON loader is the one chosen, and the context constructed from the stored
string has the same sizes in the same order, the same five flags and the same marks in
the same order. -/
theorem view_context_round_trip (env : ContextEnv) (sizes : List Int)
    (ignore_case auto_refresh follow_file use_regexp inverse_regexp : Bool)
    (markedLines : List Nat)
    (hsizes : ∀ s ∈ sizes, -2 ^ 31 ≤ s ∧ s < 2 ^ 31)
    (hmarks : ∀ m ∈ markedLines, m < 2 ^ 32)
    (hobject : ∀ entries, startsWithChar (env.toJson (QVariant.map entries)) '\x7b' = true)
    (hread : env.fromJson
        (env.toJson (QVariant.map
          (CrawlerWidgetContext.ofValues sizes ignore_case auto_refresh follow_file use_regexp
            inverse_regexp markedLines).properties))
      = QVariant.map
          (CrawlerWidgetContext.ofValues sizes ignore_case auto_refresh follow_file use_regexp
            inverse_regexp markedLines).properties) :
    startsWithChar
        ((CrawlerWidgetContext.ofValues sizes ignore_case auto_refresh follow_file use_regexp
          inverse_regexp markedLines).toString env) '\x7b' = true
    ∧ CrawlerWidgetContext.ofString env
          ((CrawlerWidgetContext.ofValues sizes ignore_case auto_refresh follow_file use_regexp
            inverse_regexp markedLines).toString env)
        = (CrawlerWidgetContext.uninitialised env).loadFromJson env
            ((CrawlerWidgetContext.ofValues sizes ignore_case auto_refresh follow_file use_regexp
              inverse_regexp markedLines).toString env)
    ∧ CrawlerWidgetContext.ofString env
          ((CrawlerWidgetContext.ofValues sizes ignore_case auto_refresh follow_file use_regexp
            inverse_regexp markedLines).toString env)
        = CrawlerWidgetContext.ofValues sizes ignore_case auto_refresh follow_file use_regexp
            inverse_regexp markedLines
    ∧ (CrawlerWidgetContext.ofString env
          ((CrawlerWidgetContext.ofValues sizes ignore_case auto_refresh follow_file use_regexp
            inverse_regexp markedLines).toString env)).sizes_ = sizes
    ∧ (CrawlerWidgetContext.ofString env
          ((CrawlerWidgetContext.ofValues sizes ignore_case auto_refresh follow_file use_regexp
            inverse_regexp markedLines).toString env)).marks_ = markedLines := by
  have hstart := hobject
    (CrawlerWidgetContext.ofValues sizes ignore_case auto_refresh follow_file use_regexp
      inverse_regexp markedLines).properties
  have hof : CrawlerWidgetContext.ofString env
        ((CrawlerWidgetContext.ofValues sizes ignore_case auto_refresh follow_file use_regexp
          inverse_regexp markedLines).toString env)
      = (CrawlerWidgetContext.uninitialised env).loadFromJson env
          ((CrawlerWidgetContext.ofValues sizes ignore_case auto_refresh follow_file use_regexp
            inverse_regexp markedLines).toString env) := by
    unfold CrawlerWidgetContext.ofString
    rw [if_pos]
    exact hstart
  have hmap : markedLines.map (fun m => m) = markedLines := List.map_id' _
  have hload : (CrawlerWidgetContext.uninitialised env).loadFromJson env
        ((CrawlerWidgetContext.ofValues sizes ignore_case auto_refresh follow_file use_regexp
          inverse_regexp markedLines).toString env)
      = CrawlerWidgetContext.ofValues sizes ignore_case auto_refresh follow_file use_regexp
          inverse_regexp markedLines := by
    unfold CrawlerWidgetContext.loadFromJson CrawlerWidgetContext.toString
    rw [hread, CrawlerWidgetContext.properties_sorted]
    have hs := toInt_number_list sizes hsizes
    have hm := toUInt_number_list markedLines hmarks
    simp +decide [QVariant.toMap, QVariantMap.contains, QVariantMap.value, QVariant.toList,
      QVariant.toBool, CrawlerWidgetContext.ofValues, CrawlerWidgetContext.uninitialised,
      hs, hm, hmap]
    simpa [List.map_map] using hm
  refine ⟨hstart, hof, hof.trans hload, ?_, ?_⟩
  · rw [hof, hload]; rfl
  · rw [hof, hload]; exact hmap

/-- C17 at a concrete input: the context of two sizes, three flags set and two marks,
with a reader and a writer of compact JSON; the stored string is
`{"AR":false,"FF":true,"IC":true,"IR":false,"M":[3,17],"RE":true,"S":[400,100]}`. -/
theorem view_context_round_trip_witness :
    ((∀ s ∈ ([400, 100] : List Int), -2 ^ 31 ≤ s ∧ s < 2 ^ 31)
      ∧ (∀ m ∈ ([3, 17] : List Nat), m < 2 ^ 32)
      ∧ (∀ entries, startsWithChar (sampleContextEnv.toJson (QVariant.map entries)) '\x7b' = true)
      ∧ sampleContextEnv.fromJson
          (sampleContextEnv.toJson (QVariant.map
            (CrawlerWidgetContext.ofValues [400, 100] true false true true false
              [3, 17]).properties))
        = QVariant.map
            (CrawlerWidgetContext.ofValues [400, 100] true false true true false
              [3, 17]).properties)
    ∧ CrawlerWidgetContext.ofString sampleContextEnv
          ((CrawlerWidgetContext.ofValues [400, 100] true false true true false
            [3, 17]).toString sampleContextEnv)
        = CrawlerWidgetContext.ofValues [400, 100] true false true true false [3, 17] :=
  ⟨⟨by decide, by decide, fun _ => rfl, rfl⟩,
    (view_context_round_trip sampleContextEnv [400, 100] true false true true false [3, 17]
      (by decide) (by decide) (fun _ => rfl) rfl).2.2.1⟩

/-! ## Theorems: the truncated file and the search state machine -/

/-- C21: `fileChangedHandler` returns the widget as it was when the status is not
`Truncated`. On `Truncated` with an empty search info line the only change is the call of
`clearMarks`. On `Truncated` with a text in the search info line the calls made are
`clearMarks`, `clearSearch` and the update of the filtered view, `nbMatches_` is 0, the
search state is `TruncatedAutorefreshing` if it was `Autorefreshing` or
`TruncatedAutorefreshing` and `FileTruncated` otherwise, the request for auto-refresh is
kept, the info line shows the text of the truncated file, and nothing else changes. -/
theorem fileChangedHandler_frame (env : WidgetEnv) (w : CrawlerWidget)
    (status : MonitoredFileStatus) :
    (status ≠ MonitoredFileStatus.Truncated → w.fileChangedHandler env status = w)
    ∧ (status = MonitoredFileStatus.Truncated → w.searchInfoLine.text.isEmpty = true →
        w.fileChangedHandler env status
          = { w with calls := w.calls ++ [Call.clearMarks] })
    ∧ (status = MonitoredFileStatus.Truncated → w.searchInfoLine.text.isEmpty = false →
        w.fileChangedHandler env status
          = { w with
              calls := w.calls
                ++ [Call.clearMarks, Call.clearSearch, Call.filteredViewUpdateData]
              nbMatches_ := 0
              searchState_ :=
                { state_ :=
                    if w.searchState_.state_ = SearchState.State.Autorefreshing
                        ∨ w.searchState_.state_ = SearchState.State.TruncatedAutorefreshing
                    then SearchState.State.TruncatedAutorefreshing
                    else SearchState.State.FileTruncated
                  autoRefreshRequested_ := w.searchState_.autoRefreshRequested_ }
              searchInfoLine :=
                { text := env.tr "File truncated on disk"
                  palette := w.searchInfoLineDefaultPalette
                  visible := !(env.tr "File truncated on disk").isEmpty } }) := by
  refine ⟨?_, ?_, ?_⟩
  · intro h
    simp [CrawlerWidget.fileChangedHandler, h]
  · intro h hempty
    simp [CrawlerWidget.fileChangedHandler, CrawlerWidget.call, h, hempty]
  · intro h hempty
    rcases hs : w.searchState_ with ⟨state, requested⟩
    cases state <;>
      simp [CrawlerWidget.fileChangedHandler, CrawlerWidget.call,
        CrawlerWidget.printSearchInfoMessage, SearchState.truncateFile, h, hempty, hs]

/-- One call of a member function of `SearchState` keeps the invariant: the state is
`Autorefreshing` or `TruncatedAutorefreshing` only if auto-refresh is requested. -/
theorem SearchState.step_keeps_requested (s : SearchState) (op : SearchState.Op)
    (hs : s.state_.isAutorefreshing = true → s.autoRefreshRequested_ = true) :
    (s.step op).state_.isAutorefreshing = true → (s.step op).autoRefreshRequested_ = true := by
  obtain ⟨state, requested⟩ := s
  cases op with
  | setAutorefresh refresh =>
    cases refresh <;> cases state <;> cases requested <;> revert hs <;> decide
  | _ => cases state <;> cases requested <;> revert hs <;> decide

/-- A sequence of calls of member functions of `SearchState` keeps the invariant. -/
theorem SearchState.run_keeps_requested (ops : List SearchState.Op) :
    ∀ s : SearchState,
      (s.state_.isAutorefreshing = true → s.autoRefreshRequested_ = true) →
      (s.run ops).state_.isAutorefreshing = true → (s.run ops).autoRefreshRequested_ = true := by
  induction ops with
  | nil => intro s hs; exact hs
  | cons op ops ih => intro s hs; exact ih (s.step op) (SearchState.step_keeps_requested s op hs)

/-- C22: from a state `initial` in which the invariant holds, as it does in the state
`NoSearch` with auto-refresh not requested, every sequence of calls of `resetState`,
`setAutorefresh`, `truncateFile`, `changeExpression`, `stopSearch` and `startSearch`
ends in a state that is `Autorefreshing` or `TruncatedAutorefreshing` only if
`autoRefreshRequested_` is true. -/
theorem autorefreshing_only_if_requested (initial : SearchState)
    (ops : List SearchState.Op)
    (hinitial : initial.state_ = SearchState.State.Autorefreshing
        ∨ initial.state_ = SearchState.State.TruncatedAutorefreshing →
      initial.autoRefreshRequested_ = true)
    (h : (initial.run ops).state_ = SearchState.State.Autorefreshing
        ∨ (initial.run ops).state_ = SearchState.State.TruncatedAutorefreshing) :
    (initial.run ops).autoRefreshRequested_ = true := by
  apply SearchState.run_keeps_requested ops initial
  · intro hi
    apply hinitial
    revert hi
    cases initial.state_ <;> simp [SearchState.State.isAutorefreshing]
  · rcases h with h | h <;> rw [h] <;> rfl

/-- The theorem of C22 at the state `NoSearch` with auto-refresh not requested and the
calls `setAutorefresh(true)`, `startSearch`, `truncateFile`, `changeExpression`, which
end in `TruncatedAutorefreshing`. -/
theorem autorefreshing_only_if_requested_witness :
    ((SearchState.mk SearchState.State.NoSearch false).run
        [SearchState.Op.setAutorefresh true, SearchState.Op.startSearch,
          SearchState.Op.truncateFile, SearchState.Op.changeExpression]).state_
      = SearchState.State.TruncatedAutorefreshing
    ∧ ((SearchState.mk SearchState.State.NoSearch false).run
        [SearchState.Op.setAutorefresh true, SearchState.Op.startSearch,
          SearchState.Op.truncateFile, SearchState.Op.changeExpression]).autoRefreshRequested_
      = true :=
  ⟨by decide,
    autorefreshing_only_if_requested (SearchState.mk SearchState.State.NoSearch false)
      [SearchState.Op.setAutorefresh true, SearchState.Op.startSearch,
        SearchState.Op.truncateFile, SearchState.Op.changeExpression]
      (by decide) (by decide)⟩

end Klogg
